import Mathlib

/-!
Verification of the Pergyra runtime core: a shallow embedding, in Lean 4, of
the slot pool (src/runtime/slot_pool.c), the slot manager
(src/runtime/slot_manager.c), the token security layer
(src/runtime/slot_security.c) and the party dispatcher's majority join
(src/runtime/party_runtime.c), together with proofs and refutations of the
specified properties.

Modelling conventions:
- C machine integers are Nat with an explicit `% 2 ^ w` exactly where the C
  width can overflow and the overflow is observable (the uint32 slot-id
  counter, the uint32 token generation).  64-bit statistics counters are kept
  as exact Nat counts: no property here depends on their wrap.
- Pointers never escape the model: callers are assumed to pass non-null
  arguments, so the C null-argument guards (which only remove successes) are
  dropped.
- The raw byte arrays (pool element storage) are List Nat; occupancy bitmaps
  are List Bool.  The C free-index stack is a (freeList array, freeListTop)
  pair whose cells at or above freeListTop are write-before-read; it is
  modelled as the live list freeList[0..freeListTop), so freeListTop is the
  length of the list, a push appends on the right and a pop takes the last
  element.
- The assembly fast paths (SlotClaimFast / SlotWriteFast / SlotReadFast) are
  not C sources; the spec requires them to preserve semantics identical to
  the C general path, so the C general path is embedded as the semantics of
  each operation.
- External cryptographic collaborators (SHA-256, the CSPRNG, the hardware
  probes) and the byte-level serialization of C structs they consume are
  abstracted into an explicit environment of total functions; timestamps and
  random draws are explicit arguments.
-/

namespace Pergyra

/-! ## Basic constants -/

/-- 2 ^ 32, the modulus of the C uint32 type. -/
def UINT32_MOD : Nat := 4294967296

/-- NULL_INDEX is ((PoolIndex)-1) for the uint32 PoolIndex (slot_pool.h). -/
def NULL_INDEX : Nat := 4294967295

/-- CACHE_LINE_SIZE from slot_pool.c (64 on every supported platform). -/
def CACHE_LINE_SIZE : Nat := 64

/-! ## Slot pool (slot_pool.h / slot_pool.c) -/

/-- The SlotPool structure of slot_pool.h.  The data array holds
elementSize * capacity bytes; freeList models the live part of the C free
stack, i.e. freeList[0..freeListTop), so freeListTop = freeList.length. -/
structure SlotPool where
  data : List Nat
  elementSize : Nat
  capacity : Nat
  count : Nat
  occupied : List Bool
  freeList : List Nat
  cacheOptimized : Bool
  cacheLineSize : Nat
  totalAllocations : Nat
  totalDeallocations : Nat
  peakUsage : Nat
deriving Repr, DecidableEq, Inhabited

/-- freeListTop of the C structure: the number of live entries of the stack. -/
def SlotPool.freeListTop (p : SlotPool) : Nat := p.freeList.length

/-- SlotPoolCreate from slot_pool.c.  The element size is rounded up to the
cache line when cacheOptimized; the free list is filled with the indices
0..capacity-1 (each cast to the uint32 PoolIndex), freeListTop = capacity;
the data array is zeroed, the occupancy bitmap is calloc-zeroed. -/
def SlotPoolCreate (elementSize capacity : Nat) (cacheOptimized : Bool) : SlotPool :=
  let alignedElementSize :=
    if cacheOptimized then
      ((elementSize + CACHE_LINE_SIZE - 1) / CACHE_LINE_SIZE) * CACHE_LINE_SIZE
    else elementSize
  { data := List.replicate (alignedElementSize * capacity) 0
    elementSize := alignedElementSize
    capacity := capacity
    count := 0
    occupied := List.replicate capacity false
    freeList := (List.range capacity).map (fun i => i % UINT32_MOD)
    cacheOptimized := cacheOptimized
    cacheLineSize := if cacheOptimized then CACHE_LINE_SIZE else 0
    totalAllocations := 0
    totalDeallocations := 0
    peakUsage := 0 }

/-- SlotPoolAlloc from slot_pool.c.  Returns the updated pool and the popped
index, or NULL_INDEX when the free stack is empty. -/
def SlotPoolAlloc (pool : SlotPool) : SlotPool × Nat :=
  if pool.freeList.length = 0 then (pool, NULL_INDEX)
  else
    let index := pool.freeList.getLastD 0
    let count := pool.count + 1
    ({ pool with
        freeList := pool.freeList.dropLast
        occupied := pool.occupied.set index true
        count := count
        totalAllocations := pool.totalAllocations + 1
        peakUsage := if count > pool.peakUsage then count else pool.peakUsage },
     index)

/-- memset(slotData, 0, len) on the byte array: zero the bytes
[start, start+len). -/
def zeroRange (l : List Nat) (start len : Nat) : List Nat :=
  l.take start ++ List.replicate len 0 ++ l.drop (start + len)

/-- SlotPoolFree from slot_pool.c.  Fails (false, pool unchanged) on an
out-of-range or unoccupied index; otherwise zero-fills the element bytes,
clears the occupancy bit and pushes the index back on the free stack. -/
def SlotPoolFree (pool : SlotPool) (index : Nat) : SlotPool × Bool :=
  if index ≥ pool.capacity ∨ pool.occupied.getD index false = false then (pool, false)
  else
    ({ pool with
        data := zeroRange pool.data (index * pool.elementSize) pool.elementSize
        occupied := pool.occupied.set index false
        count := pool.count - 1
        freeList := pool.freeList ++ [index]
        totalDeallocations := pool.totalDeallocations + 1 },
     true)

/-- The slot-pool state invariant of the spec: occupancy bitmap and data array
have their nominal sizes, the free stack holds exactly the unoccupied indices
with no duplicates, and count + freeListTop = capacity (i.e. count =
capacity - freeListTop). -/
def poolInv (p : SlotPool) : Prop :=
  p.occupied.length = p.capacity ∧
  p.data.length = p.elementSize * p.capacity ∧
  p.freeList.Nodup ∧
  (∀ i ∈ p.freeList, i < p.capacity ∧ p.occupied.getD i true = false) ∧
  (∀ i < p.capacity, p.occupied.getD i true = false → i ∈ p.freeList) ∧
  p.count + p.freeList.length = p.capacity

instance (p : SlotPool) : Decidable (poolInv p) := by
  unfold poolInv
  infer_instance

/-! ## Slot manager (slot_manager.h / slot_manager.c) -/

/-- SlotError from slot_manager.h. -/
inductive SlotError where
  | SLOT_SUCCESS
  | SLOT_ERROR_OUT_OF_MEMORY
  | SLOT_ERROR_INVALID_HANDLE
  | SLOT_ERROR_TYPE_MISMATCH
  | SLOT_ERROR_SLOT_NOT_FOUND
  | SLOT_ERROR_PERMISSION_DENIED
  | SLOT_ERROR_TTL_EXPIRED
  | SLOT_ERROR_THREAD_VIOLATION
deriving Repr, DecidableEq, Inhabited

/-- SlotEntry from slot_manager.h.  dataBlockRef is the block index of the
lazily allocated memory block (none models the NULL pointer). -/
structure SlotEntry where
  slotId : Nat
  typeTag : Nat
  occupied : Bool
  dataBlockRef : Option Nat
  ttl : Nat
  threadAffinity : Nat
  allocationTime : Nat
deriving Repr, DecidableEq, Inhabited

/-- The all-zero entry produced by calloc and by memset(entry, 0, ...). -/
def SlotEntry.cleared : SlotEntry :=
  { slotId := 0, typeTag := 0, occupied := false, dataBlockRef := none,
    ttl := 0, threadAffinity := 0, allocationTime := 0 }

/-- SlotHandle from slot_manager.h. -/
structure SlotHandle where
  slotId : Nat
  typeTag : Nat
  generation : Nat
deriving Repr, DecidableEq, Inhabited

/-- The MemoryPool of slot_manager.c.  Despite its C name, freeBlocks[i] is
true when block i is in use (calloc starts it all-false and the allocator
looks for false cells). -/
structure MemoryPool where
  blockSize : Nat
  totalBlocks : Nat
  freeBlocks : List Bool
deriving Repr, DecidableEq, Inhabited

/-- SlotManager from slot_manager.h.  tableSize always equals
slotTable.length (both are set to maxSlots at creation and never change), so
the table length stands for both fields.  The statistics counters are C
uint64; they are kept as exact Nat counts. -/
structure SlotManager where
  slotTable : List SlotEntry
  maxSlots : Nat
  nextSlotId : Nat
  memoryPool : MemoryPool
  totalAllocations : Nat
  totalDeallocations : Nat
  activeSlots : Nat
  cacheHits : Nat
  cacheMisses : Nat
deriving Repr, DecidableEq, Inhabited

/-- SlotManagerCreate from slot_manager.c: calloc-zeroed table of maxSlots
entries, nextSlotId starts at 1 (0 is reserved as the invalid id), a memory
pool of 64-byte blocks, all statistics zero. -/
def SlotManagerCreate (maxSlots memoryPoolSize : Nat) : SlotManager :=
  { slotTable := List.replicate maxSlots SlotEntry.cleared
    maxSlots := maxSlots
    nextSlotId := 1
    memoryPool :=
      { blockSize := 64
        totalBlocks := memoryPoolSize / 64
        freeBlocks := List.replicate (memoryPoolSize / 64) false }
    totalAllocations := 0
    totalDeallocations := 0
    activeSlots := 0
    cacheHits := 0
    cacheMisses := 0 }

/-- First index of the list satisfying the test, exactly as the C scan
for (i = 0; i < tableSize; i++). -/
def findFirstIdx (p : α → Bool) : List α → Option Nat
  | [] => none
  | a :: as => if p a then some 0 else (findFirstIdx p as).map (fun i => i + 1)

/-- TypeGetSize from slot_manager.c (TYPE_INT = 1 .. TYPE_VECTOR = 7). -/
def TypeGetSize (tag : Nat) : Nat :=
  if tag = 1 then 4
  else if tag = 2 then 8
  else if tag = 3 then 4
  else if tag = 4 then 8
  else if tag = 6 then 1
  else if tag = 5 then 256
  else if tag = 7 then 1024
  else 64

/-- The first-fit scan of AllocateMemoryBlock: the first block index i with
need consecutive unused blocks, scanning i = 0 .. totalBlocks - need as the
C loop does.  (The C loop bound totalBlocks - need is a size_t subtraction;
the need > totalBlocks case, where that subtraction wraps and the scan runs
out of bounds, is undefined behaviour in C and is modelled as a failed
search.) -/
def findFit (blocks : List Bool) (totalBlocks need : Nat) : Option Nat :=
  if need ≤ totalBlocks then
    (List.range (totalBlocks - need + 1)).find?
      (fun i => (List.range need).all (fun j => !(blocks.getD (i + j) true)))
  else none

/-- Mark the blocks [start, start+len) of the usage bitmap with the value v. -/
def markBlocks (l : List Bool) (start len : Nat) (v : Bool) : List Bool :=
  (List.range len).foldl (fun acc j => acc.set (start + j) v) l

/-- AllocateMemoryBlock from slot_manager.c: first-fit over 64-byte blocks;
on success the blocks are marked used and the block index is returned. -/
def AllocateMemoryBlock (pool : MemoryPool) (size : Nat) : MemoryPool × Option Nat :=
  let need := (size + pool.blockSize - 1) / pool.blockSize
  match findFit pool.freeBlocks pool.totalBlocks need with
  | some i => ({ pool with freeBlocks := markBlocks pool.freeBlocks i need true }, some i)
  | none => (pool, none)

/-- DeallocateMemoryBlock from slot_manager.c: mark the covered blocks free,
skipping any position past totalBlocks. -/
def DeallocateMemoryBlock (pool : MemoryPool) (blockIndex size : Nat) : MemoryPool :=
  let toFree := (size + pool.blockSize - 1) / pool.blockSize
  { pool with
      freeBlocks :=
        (List.range toFree).foldl
          (fun acc i => if blockIndex + i < pool.totalBlocks then acc.set (blockIndex + i) false else acc)
          pool.freeBlocks }

/-- SlotClaim from slot_manager.c (general path; the assembly fast path taken
for type ≤ TYPE_CUSTOM is specified to preserve identical semantics).  The
first unoccupied entry is filled with a fresh slot id drawn from the uint32
nextSlotId counter (entry->slotId = manager->nextSlotId++), the handle gets
generation 1, and allocationTime records the time(NULL) argument.  With no
free entry the result is SLOT_ERROR_OUT_OF_MEMORY. -/
def SlotClaim (m : SlotManager) (type now : Nat) :
    SlotManager × SlotError × Option SlotHandle :=
  match findFirstIdx (fun e => !e.occupied) m.slotTable with
  | some i =>
    let entry : SlotEntry :=
      { slotId := m.nextSlotId, typeTag := type, occupied := true,
        dataBlockRef := none, ttl := 0, threadAffinity := 0, allocationTime := now }
    let handle : SlotHandle :=
      { slotId := m.nextSlotId, typeTag := type, generation := 1 }
    ({ m with
        slotTable := m.slotTable.set i entry
        nextSlotId := (m.nextSlotId + 1) % UINT32_MOD
        totalAllocations := m.totalAllocations + 1
        activeSlots := m.activeSlots + 1 },
     SlotError.SLOT_SUCCESS, some handle)
  | none => (m, SlotError.SLOT_ERROR_OUT_OF_MEMORY, none)

/-- The slot lookup shared by SlotWrite, SlotRead and SlotRelease: the first
entry whose slotId equals the handle's and which is occupied.  The handle's
generation takes no part in the scan. -/
def findSlot (m : SlotManager) (handle : SlotHandle) : Option Nat :=
  findFirstIdx (fun e => e.slotId == handle.slotId && e.occupied) m.slotTable

/-- SlotWrite from slot_manager.c (general path; the fast path for
dataSize ≤ 256 and primitive tags is specified to preserve identical
semantics).  The written bytes themselves are not tracked: no specified
property mentions them. -/
def SlotWrite (m : SlotManager) (handle : SlotHandle) (dataSize : Nat) :
    SlotManager × SlotError :=
  match findSlot m handle with
  | none => (m, SlotError.SLOT_ERROR_SLOT_NOT_FOUND)
  | some i =>
    let entry := m.slotTable.getD i default
    if entry.typeTag ≠ handle.typeTag then (m, SlotError.SLOT_ERROR_TYPE_MISMATCH)
    else
      match entry.dataBlockRef with
      | some _ => (m, SlotError.SLOT_SUCCESS)
      | none =>
        match AllocateMemoryBlock m.memoryPool dataSize with
        | (pool, some b) =>
          ({ m with
              memoryPool := pool
              slotTable := m.slotTable.set i { entry with dataBlockRef := some b } },
           SlotError.SLOT_SUCCESS)
        | (pool, none) => ({ m with memoryPool := pool }, SlotError.SLOT_ERROR_OUT_OF_MEMORY)

/-- SlotRead from slot_manager.c.  Returns the state, the error and, on
success, bytesRead = min(TypeGetSize(entry.typeTag), bufferSize). -/
def SlotRead (m : SlotManager) (handle : SlotHandle) (bufferSize : Nat) :
    SlotManager × SlotError × Option Nat :=
  match findSlot m handle with
  | none =>
    ({ m with cacheMisses := m.cacheMisses + 1 }, SlotError.SLOT_ERROR_SLOT_NOT_FOUND, none)
  | some i =>
    let entry := m.slotTable.getD i default
    if entry.typeTag ≠ handle.typeTag then (m, SlotError.SLOT_ERROR_TYPE_MISMATCH, none)
    else
      match entry.dataBlockRef with
      | none => (m, SlotError.SLOT_ERROR_SLOT_NOT_FOUND, none)
      | some _ =>
        let copySize := min (TypeGetSize entry.typeTag) bufferSize
        ({ m with cacheHits := m.cacheHits + 1 }, SlotError.SLOT_SUCCESS, some copySize)

/-- SlotRelease from slot_manager.c: find the occupied entry with the
handle's slotId (the typeTag and generation are not examined), return its
memory block to the pool if one was allocated, and memset the entry to
zero. -/
def SlotRelease (m : SlotManager) (handle : SlotHandle) : SlotManager × SlotError :=
  match findSlot m handle with
  | none => (m, SlotError.SLOT_ERROR_SLOT_NOT_FOUND)
  | some i =>
    let entry := m.slotTable.getD i default
    let pool :=
      match entry.dataBlockRef with
      | some b => DeallocateMemoryBlock m.memoryPool b (TypeGetSize entry.typeTag)
      | none => m.memoryPool
    ({ m with
        memoryPool := pool
        slotTable := m.slotTable.set i SlotEntry.cleared
        totalDeallocations := m.totalDeallocations + 1
        activeSlots := m.activeSlots - 1 },
     SlotError.SLOT_SUCCESS)

/-! ## Slot manager traces -/

/-- One client call into the slot manager API.  claim carries the TypeTag
argument and the time(NULL) reading; write and read carry the byte counts. -/
inductive SlotOp where
  | claim (type now : Nat)
  | write (h : SlotHandle) (dataSize : Nat)
  | read (h : SlotHandle) (bufferSize : Nat)
  | release (h : SlotHandle)
deriving Repr, DecidableEq

/-- Run one operation: the next state, the error code, and the handle output
(for claim). -/
def runOp (m : SlotManager) : SlotOp → SlotManager × SlotError × Option SlotHandle
  | .claim ty now => SlotClaim m ty now
  | .write h n =>
    let r := SlotWrite m h n
    (r.1, r.2, none)
  | .read h n =>
    let r := SlotRead m h n
    (r.1, r.2.1, none)
  | .release h =>
    let r := SlotRelease m h
    (r.1, r.2, none)

/-- Run a list of operations, returning the final state. -/
def runTrace (m : SlotManager) : List SlotOp → SlotManager
  | [] => m
  | op :: rest => runTrace (runOp m op).1 rest

/-- Run a list of operations, returning the per-operation outputs
(error code and, for a claim, the issued handle). -/
def traceOutputs (m : SlotManager) : List SlotOp → List (SlotError × Option SlotHandle)
  | [] => []
  | op :: rest =>
    let r := runOp m op
    (r.2.1, r.2.2) :: traceOutputs r.1 rest

/-- The reachable-state invariant of the slot manager: nextSlotId is the
uint32 image of 1 + the number of successful claims so far, and — as long as
the claim counter has not yet exhausted the uint32 range — every occupied
entry carries a nonzero slot id at most that count, and occupied entries at
distinct table positions carry distinct slot ids. -/
def managerInv (m : SlotManager) : Prop :=
  m.nextSlotId = (1 + m.totalAllocations) % UINT32_MOD ∧
  (m.totalAllocations < UINT32_MOD →
    (∀ i < m.slotTable.length, (m.slotTable.getD i default).occupied = true →
      0 < (m.slotTable.getD i default).slotId ∧
      (m.slotTable.getD i default).slotId ≤ m.totalAllocations) ∧
    (∀ i < m.slotTable.length, ∀ j < m.slotTable.length, i ≠ j →
      (m.slotTable.getD i default).occupied = true →
      (m.slotTable.getD j default).occupied = true →
      (m.slotTable.getD i default).slotId ≠ (m.slotTable.getD j default).slotId))

/-- The slot id s is dead in state m: it was issued (nonzero and at most the
claim count) and no occupied table entry carries it any more. -/
def released (m : SlotManager) (s : Nat) : Prop :=
  0 < s ∧ s ≤ m.totalAllocations ∧
  ∀ i < m.slotTable.length, (m.slotTable.getD i default).occupied = true →
    (m.slotTable.getD i default).slotId ≠ s

instance (m : SlotManager) (s : Nat) : Decidable (released m s) := by
  unfold released
  infer_instance

instance (m : SlotManager) : Decidable (managerInv m) := by
  haveI : Decidable (∀ i < m.slotTable.length, ∀ j < m.slotTable.length, i ≠ j →
      (m.slotTable.getD i default).occupied = true →
      (m.slotTable.getD j default).occupied = true →
      (m.slotTable.getD i default).slotId ≠ (m.slotTable.getD j default).slotId) :=
    Nat.decidableBallLT _ _
  unfold managerInv
  infer_instance

/-- The manager state reached, on a maxSlots = 1 manager with the given pool
size, after k claim/release cycles: the single entry is zeroed again, the
claim counter is k, and the uint32 slot-id counter holds (1 + k) % 2^32. -/
def cycleState (poolSize k : Nat) : SlotManager :=
  { slotTable := [SlotEntry.cleared]
    maxSlots := 1
    nextSlotId := (1 + k) % UINT32_MOD
    memoryPool :=
      { blockSize := 64
        totalBlocks := poolSize / 64
        freeBlocks := List.replicate (poolSize / 64) false }
    totalAllocations := k
    totalDeallocations := k
    activeSlots := 0
    cacheHits := 0
    cacheMisses := 0 }

/-- The operations of cycles k, k+1, ..., k+n-1 on a maxSlots = 1 manager:
cycle k claims (receiving the handle with slot id (1+k) % 2^32 and
generation 1) and releases that same handle. -/
def cycleSeg (ty k : Nat) : Nat → List SlotOp
  | 0 => []
  | n + 1 =>
    SlotOp.claim ty 0 ::
    SlotOp.release { slotId := (1 + k) % UINT32_MOD, typeTag := ty, generation := 1 } ::
    cycleSeg ty (k + 1) n

/-- The intermediate state inside claim/release cycle k on a maxSlots = 1
manager: the single entry claimed (slot id (1+k) % 2^32), before its
release. -/
def cycleClaimedState (poolSize ty k : Nat) : SlotManager :=
  { slotTable :=
      [{ slotId := (1 + k) % UINT32_MOD, typeTag := ty, occupied := true,
         dataBlockRef := none, ttl := 0, threadAffinity := 0, allocationTime := 0 }]
    maxSlots := 1
    nextSlotId := ((1 + k) % UINT32_MOD + 1) % UINT32_MOD
    memoryPool :=
      { blockSize := 64
        totalBlocks := poolSize / 64
        freeBlocks := List.replicate (poolSize / 64) false }
    totalAllocations := k + 1
    totalDeallocations := k
    activeSlots := 1
    cacheHits := 0
    cacheMisses := 0 }

/-! ## Security layer (slot_security.h / slot_security.c) -/

/-- SecurityError from slot_security.h. -/
inductive SecurityError where
  | SECURITY_SUCCESS
  | SECURITY_ERROR_INVALID_TOKEN
  | SECURITY_ERROR_TOKEN_EXPIRED
  | SECURITY_ERROR_PERMISSION_DENIED
  | SECURITY_ERROR_HARDWARE_MISMATCH
  | SECURITY_ERROR_CRYPTOGRAPHY_FAILED
  | SECURITY_ERROR_REPLAY_ATTACK
  | SECURITY_ERROR_INSUFFICIENT_ENTROPY
  | SECURITY_ERROR_CONTEXT_NOT_INITIALIZED
deriving Repr, DecidableEq, Inhabited

/-- SecurityLevel from slot_security.h (BASIC = 1, HARDWARE = 2,
ENCRYPTED = 3). -/
inductive SecurityLevel where
  | basic
  | hardware
  | encrypted
deriving Repr, DecidableEq, Inhabited

/-- The numeric value of the C enum, used for the ordered comparison
level >= SECURITY_LEVEL_HARDWARE. -/
def SecurityLevel.toNat : SecurityLevel → Nat
  | .basic => 1
  | .hardware => 2
  | .encrypted => 3

/-- SECURITY_DEFAULT_TOKEN_TTL_MS from slot_security.h. -/
def SECURITY_DEFAULT_TOKEN_TTL_MS : Nat := 300000

/-- SecureToken from slot_security.h.  The 32 SHA-256 output bytes are
abstracted into one Nat; generation and checksum are the uint32 fields. -/
structure SecureToken where
  tokenData : Nat
  generation : Nat
  checksum : Nat
deriving Repr, DecidableEq, Inhabited

/-- TokenCapability from slot_security.h. -/
structure TokenCapability where
  slotId : Nat
  token : SecureToken
  level : SecurityLevel
  issuedTime : Nat
  expiryTime : Nat
  canRead : Bool
  canWrite : Bool
  canTransfer : Bool
deriving Repr, DecidableEq, Inhabited

/-- SecurityContext from slot_security.h.  The hardware fingerprint is an
abstract value (its byte-level layout never matters: it is only hashed and
compared for equality).  The master key takes no part in token generation or
validation and is omitted.  The uint64 statistics counters are exact Nat
counts. -/
structure SecurityContext where
  hwFingerprint : Nat
  defaultLevel : SecurityLevel
  initialized : Bool
  tokensIssued : Nat
  tokensValidated : Nat
  validationFailures : Nat
  securityViolations : Nat
deriving Repr, DecidableEq, Inhabited

/-- The external collaborators of slot_security.c, as total functions:
sha256 maps the token material (hardware fingerprint, slot id, issue time,
random bytes) to the abstracted 32-byte digest; hwHash is
HardwareFingerprintHash (a uint32); fingerprintNow is the fingerprint that
HardwareFingerprintGenerate reads from the platform probes at the moment of
a validation. -/
structure CryptoEnv where
  sha256 : Nat × Nat × Nat × Nat → Nat
  hwHash : Nat → Nat
  fingerprintNow : Nat
deriving Inhabited

/-- The token TTL window TokenGenerate adds to the issue timestamp for each
level (slot_security.c lines 206-219). -/
def tokenTtlWindow : SecurityLevel → Nat
  | .basic => SECURITY_DEFAULT_TOKEN_TTL_MS * 1000
  | .hardware => SECURITY_DEFAULT_TOKEN_TTL_MS * 500
  | .encrypted => SECURITY_DEFAULT_TOKEN_TTL_MS * 200

/-- TokenGenerate from slot_security.c.  now is the SecureTimestamp reading
and rand the CSPRNG draw.  The capability binds the slot id, carries
expiryTime = issuedTime + the level's TTL window, permissions
(read, write, no transfer), the SHA-256 digest of the token material, the
uint32 truncation of ++tokensIssued as its generation, and checksum =
hwHash(fingerprint) XOR generation. -/
def TokenGenerate (env : CryptoEnv) (ctx : SecurityContext) (slotId : Nat)
    (level : SecurityLevel) (now rand : Nat) :
    SecurityContext × SecurityError × Option TokenCapability :=
  if ctx.initialized = false then
    (ctx, SecurityError.SECURITY_ERROR_CONTEXT_NOT_INITIALIZED, none)
  else
    let issued := now
    let issuedCount := ctx.tokensIssued + 1
    let gen := issuedCount % UINT32_MOD
    let tokenData := env.sha256 (ctx.hwFingerprint, slotId, issued, rand)
    let checksum := Nat.xor (env.hwHash ctx.hwFingerprint % UINT32_MOD) gen
    ({ ctx with tokensIssued := issuedCount },
     SecurityError.SECURITY_SUCCESS,
     some
       { slotId := slotId
         token := { tokenData := tokenData, generation := gen, checksum := checksum }
         level := level
         issuedTime := issued
         expiryTime := issued + tokenTtlWindow level
         canRead := true
         canWrite := true
         canTransfer := false })

/-- TokenValidate from slot_security.c.  The checks run in source order:
TTL (expiryTime > 0 and now past it fails with TOKEN_EXPIRED), slot-id
binding (mismatch fails with INVALID_TOKEN and bumps securityViolations),
hardware binding for level ≥ HARDWARE (the freshly probed fingerprint must
equal the context's), the checksum, and finally a freshly re-generated
token is constant-time-compared with the presented one (rand is the CSPRNG
draw of that inner TokenGenerate). -/
def TokenValidate (env : CryptoEnv) (ctx : SecurityContext) (slotId : Nat)
    (cap : TokenCapability) (now rand : Nat) : SecurityContext × SecurityError :=
  if ctx.initialized = false then
    (ctx, SecurityError.SECURITY_ERROR_CONTEXT_NOT_INITIALIZED)
  else
    let ctx1 := { ctx with tokensValidated := ctx.tokensValidated + 1 }
    if cap.expiryTime > 0 ∧ now > cap.expiryTime then
      ({ ctx1 with validationFailures := ctx1.validationFailures + 1 },
       SecurityError.SECURITY_ERROR_TOKEN_EXPIRED)
    else if cap.slotId ≠ slotId then
      ({ ctx1 with
          validationFailures := ctx1.validationFailures + 1
          securityViolations := ctx1.securityViolations + 1 },
       SecurityError.SECURITY_ERROR_INVALID_TOKEN)
    else if SecurityLevel.toNat cap.level ≥ SecurityLevel.toNat SecurityLevel.hardware ∧
        env.fingerprintNow ≠ ctx1.hwFingerprint then
      ({ ctx1 with securityViolations := ctx1.securityViolations + 1 },
       SecurityError.SECURITY_ERROR_HARDWARE_MISMATCH)
    else
      let expectedChecksum :=
        Nat.xor (env.hwHash ctx1.hwFingerprint % UINT32_MOD) cap.token.generation
      if cap.token.checksum ≠ expectedChecksum then
        ({ ctx1 with
            validationFailures := ctx1.validationFailures + 1
            securityViolations := ctx1.securityViolations + 1 },
         SecurityError.SECURITY_ERROR_INVALID_TOKEN)
      else
        match TokenGenerate env ctx1 slotId cap.level now rand with
        | (ctx2, SecurityError.SECURITY_SUCCESS, some test) =>
          if cap.token = test.token then (ctx2, SecurityError.SECURITY_SUCCESS)
          else
            ({ ctx2 with
                validationFailures := ctx2.validationFailures + 1
                securityViolations := ctx2.securityViolations + 1 },
             SecurityError.SECURITY_ERROR_INVALID_TOKEN)
        | (ctx2, err, _) => (ctx2, err)

/-! ## Party dispatcher majority join (party_runtime.c) -/

/-- A dispatched fiber-map entry outcome is an Option Bool: none when no
fiber was created for the entry (missing role instance, missing scheduler,
or fiber creation failure — its result.success stays false), and some b
when a fiber ran and its recorded result.success is b.
countSuccess is the number of entries whose recorded result.success is
true. -/
def countSuccess : List (Option Bool) → Nat
  | [] => 0
  | some true :: t => countSuccess t + 1
  | _ :: t => countSuccess t

/-- Number of entries that actually have a fiber. -/
def fiberCount : List (Option Bool) → Nat
  | [] => 0
  | some _ :: t => fiberCount t + 1
  | none :: t => fiberCount t

/-- The JOIN_MAJORITY wait loop of DispatchParallel (party_runtime.c lines
381-398), run over the eventual per-entry outcomes: entries without a fiber
are skipped; each fiber is waited for in index order; a success bumps the
count and the loop breaks as soon as the count reaches the threshold.
Returns the final successCount and the number of fibers waited for. -/
def majorityLoop (req : Nat) : List (Option Bool) → Nat → Nat × Nat
  | [], succCount => (succCount, 0)
  | none :: rest, succCount => majorityLoop req rest succCount
  | some b :: rest, succCount =>
    let succCount1 := if b then succCount + 1 else succCount
    if b ∧ succCount1 ≥ req then (succCount1, 1)
    else
      let r := majorityLoop req rest succCount1
      (r.1, r.2 + 1)

/-- The JOIN_MAJORITY arm of DispatchParallel: requiredCount =
entryCount / 2 + 1, the wait loop above, and allSucceeded = (successCount ≥
requiredCount).  Returns (allSucceeded, successCount, fibersWaited). -/
def DispatchParallelMajority (results : List (Option Bool)) : Bool × Nat × Nat :=
  let requiredCount := results.length / 2 + 1
  let r := majorityLoop requiredCount results 0
  (decide (r.1 ≥ requiredCount), r.1, r.2)

/-! ## List helper lemmas -/

theorem getD_indep {α} (l : List α) (i : Nat) (d d2 : α) (h : i < l.length) :
    l.getD i d = l.getD i d2 := by
  induction l generalizing i with
  | nil => simp at h
  | cons a t ih =>
    cases i with
    | zero => rfl
    | succ n => simpa using ih n (by simpa using h)

theorem getD_set_self {α} (l : List α) (i : Nat) (b d : α) (h : i < l.length) :
    (l.set i b).getD i d = b := by
  induction l generalizing i with
  | nil => simp at h
  | cons a t ih =>
    cases i with
    | zero => rfl
    | succ n => simpa using ih n (by simpa using h)

theorem getD_set_ne {α} (l : List α) (i j : Nat) (b d : α) (h : i ≠ j) :
    (l.set i b).getD j d = l.getD j d := by
  induction l generalizing i j with
  | nil => rfl
  | cons a t ih =>
    cases i with
    | zero =>
      cases j with
      | zero => exact absurd rfl h
      | succ n => rfl
    | succ n =>
      cases j with
      | zero => rfl
      | succ k => simpa using ih n k (by omega)

theorem getD_replicate_lt {α} (n i : Nat) (a d : α) (h : i < n) :
    (List.replicate n a).getD i d = a := by
  induction n generalizing i with
  | zero => omega
  | succ n ih =>
    cases i with
    | zero => rfl
    | succ k =>
      rw [List.replicate_succ]
      simpa using ih k (by omega)

theorem mem_iff_getD {α} (l : List α) (d a : α) :
    a ∈ l ↔ ∃ i, i < l.length ∧ l.getD i d = a := by
  induction l with
  | nil => simp
  | cons b t ih =>
    constructor
    · intro hmem
      rcases List.mem_cons.mp hmem with h | h
      · exact ⟨0, by simp, by simpa using h.symm⟩
      · rcases ih.mp h with ⟨i, hi, hget⟩
        exact ⟨i + 1, by simpa using hi, by simpa using hget⟩
    · rintro ⟨i, hi, hget⟩
      cases i with
      | zero => simp only [List.getD_cons_zero] at hget; simp [hget]
      | succ k =>
        right
        exact ih.mpr ⟨k, by simpa using hi, by simpa using hget⟩

theorem getD_mem {α} (l : List α) (i : Nat) (d : α) (h : i < l.length) :
    l.getD i d ∈ l :=
  (mem_iff_getD l d _).mpr ⟨i, h, rfl⟩

theorem dropLast_append_getLastD {α} (l : List α) (d : α) (h : l ≠ []) :
    l.dropLast ++ [l.getLastD d] = l := by
  induction l with
  | nil => exact absurd rfl h
  | cons a t ih =>
    cases t with
    | nil => rfl
    | cons b u => simpa using ih (by simp)

theorem findFirstIdx_eq_none_iff {α} (p : α → Bool) (l : List α) :
    findFirstIdx p l = none ↔ ∀ a ∈ l, p a = false := by
  induction l with
  | nil => simp [findFirstIdx]
  | cons a t ih =>
    by_cases hpa : p a
    · simp [findFirstIdx, hpa]
    · cases hft : findFirstIdx p t with
      | some k =>
        simp only [findFirstIdx, if_neg hpa, hft]
        constructor
        · intro hn
          exact absurd hn (by simp)
        · intro hall
          have := ih.mpr (fun b hb => hall b (List.mem_cons_of_mem a hb))
          rw [hft] at this
          exact absurd this (by simp)
      | none =>
        simp only [findFirstIdx, if_neg hpa, hft]
        constructor
        · intro _ b hb
          rcases List.mem_cons.mp hb with rfl | hb2
          · simpa using hpa
          · exact (ih.mp hft) b hb2
        · intro _
          rfl

theorem findFirstIdx_eq_some {α} (p : α → Bool) (l : List α) (i : Nat) (d : α)
    (h : findFirstIdx p l = some i) :
    i < l.length ∧ p (l.getD i d) = true := by
  induction l generalizing i with
  | nil => simp [findFirstIdx] at h
  | cons a t ih =>
    by_cases hpa : p a
    · simp only [findFirstIdx, if_pos hpa, Option.some_inj] at h
      subst h
      exact ⟨by simp, by simpa using hpa⟩
    · cases hft : findFirstIdx p t with
      | none => simp [findFirstIdx, if_neg hpa, hft] at h
      | some k =>
        simp only [findFirstIdx, if_neg hpa, hft] at h
        have h2 : k + 1 = i := by simpa using h
        subst h2
        rcases ih k hft with ⟨h1, h2⟩
        exact ⟨by simpa using h1, by simpa using h2⟩

/-! ## Slot pool: invariant lemmas -/

theorem zeroRange_length (l : List Nat) (s n : Nat) (h : s + n ≤ l.length) :
    (zeroRange l s n).length = l.length := by
  simp only [zeroRange, List.length_append, List.length_take, List.length_replicate,
    List.length_drop]
  omega

theorem poolInv_create (elementSize capacity : Nat) (cacheOptimized : Bool)
    (hcap : capacity ≤ UINT32_MOD) :
    poolInv (SlotPoolCreate elementSize capacity cacheOptimized) := by
  have hrange : (List.range capacity).map (fun i => i % UINT32_MOD) = List.range capacity := by
    have hid : ∀ i ∈ List.range capacity, i % UINT32_MOD = i := fun i hi =>
      Nat.mod_eq_of_lt (lt_of_lt_of_le (List.mem_range.mp hi) hcap)
    calc (List.range capacity).map (fun i => i % UINT32_MOD)
        = (List.range capacity).map id := List.map_congr_left hid
      _ = List.range capacity := List.map_id _
  refine ⟨by simp [SlotPoolCreate], by simp [SlotPoolCreate, Nat.mul_comm], ?_, ?_, ?_, ?_⟩
  · simp only [SlotPoolCreate, hrange]
    exact List.nodup_range capacity
  · intro i hi
    simp only [SlotPoolCreate, hrange] at hi ⊢
    have hlt : i < capacity := List.mem_range.mp hi
    exact ⟨hlt, getD_replicate_lt _ _ _ _ hlt⟩
  · intro i hi _
    simp only [SlotPoolCreate, hrange]
    exact List.mem_range.mpr hi
  · simp [SlotPoolCreate, hrange]

theorem poolInv_alloc (p : SlotPool) (hp : poolInv p) : poolInv (SlotPoolAlloc p).1 := by
  by_cases hempty : p.freeList.length = 0
  · simpa [SlotPoolAlloc, hempty] using hp
  · obtain ⟨hoccLen, hdataLen, hnodup, hmem1, hmem2, hcount⟩ := hp
    have hne : p.freeList ≠ [] := fun h => hempty (by simp [h])
    have hdecomp : p.freeList.dropLast ++ [p.freeList.getLastD 0] = p.freeList :=
      dropLast_append_getLastD _ 0 hne
    have hidxmem : p.freeList.getLastD 0 ∈ p.freeList := by
      rw [← hdecomp]; simp
    have hidxlt : p.freeList.getLastD 0 < p.capacity := (hmem1 _ hidxmem).1
    have hnd : (p.freeList.dropLast ++ [p.freeList.getLastD 0]).Nodup := by
      rw [hdecomp]; exact hnodup
    rw [List.nodup_append] at hnd
    have hnddrop : p.freeList.dropLast.Nodup := hnd.1
    have hidxnot : p.freeList.getLastD 0 ∉ p.freeList.dropLast := by
      intro hmem
      exact hnd.2.2 hmem (by simp)
    have hmemdrop : ∀ j, j ∈ p.freeList.dropLast → j ∈ p.freeList := by
      intro j hj
      rw [← hdecomp]
      exact List.mem_append_left _ hj
    have hmemsplit : ∀ j, j ∈ p.freeList → j ∈ p.freeList.dropLast ∨ j = p.freeList.getLastD 0 := by
      intro j hj
      rw [← hdecomp] at hj
      rcases List.mem_append.mp hj with h | h
      · exact Or.inl h
      · exact Or.inr (by simpa using h)
    simp only [SlotPoolAlloc, if_neg hempty]
    refine ⟨by simpa using hoccLen, by simpa using hdataLen, hnddrop, ?_, ?_, ?_⟩
    · intro j hj
      simp only at hj ⊢
      have hjl : j ∈ p.freeList := hmemdrop j hj
      have hjne : p.freeList.getLastD 0 ≠ j := by
        rintro rfl
        exact hidxnot hj
      rw [getD_set_ne _ _ _ _ _ hjne]
      exact hmem1 j hjl
    · intro j hjlt hjocc
      simp only at hjlt hjocc ⊢
      by_cases hje : j = p.freeList.getLastD 0
      · subst hje
        rw [getD_set_self _ _ _ _ (by omega)] at hjocc
        exact absurd hjocc (by simp)
      · rw [getD_set_ne _ _ _ _ _ (fun h => hje h.symm)] at hjocc
        rcases hmemsplit j (hmem2 j hjlt hjocc) with h | h
        · exact h
        · exact absurd h hje
    · simp only [List.length_dropLast]
      omega

theorem poolInv_free (p : SlotPool) (i : Nat) (hp : poolInv p) :
    poolInv (SlotPoolFree p i).1 := by
  by_cases hguard : i ≥ p.capacity ∨ p.occupied.getD i false = false
  · have : SlotPoolFree p i = (p, false) := by
      unfold SlotPoolFree
      rw [if_pos hguard]
    rw [this]
    exact hp
  · obtain ⟨hoccLen, hdataLen, hnodup, hmem1, hmem2, hcount⟩ := hp
    push_neg at hguard
    obtain ⟨hilt, hocc⟩ := hguard
    have hocc2 : p.occupied.getD i true = true := by
      rw [getD_indep _ _ _ false (by omega)]
      simpa using hocc
    have hinot : i ∉ p.freeList := by
      intro hmem
      have := (hmem1 i hmem).2
      rw [this] at hocc2
      exact absurd hocc2 (by simp)
    have hlenlt : p.freeList.length < p.capacity := by
      have hsub : p.freeList.toFinset ⊆ (Finset.range p.capacity).erase i := by
        intro x hx
        have hx2 : x ∈ p.freeList := List.mem_toFinset.mp hx
        refine Finset.mem_erase.mpr ⟨?_, Finset.mem_range.mpr (hmem1 x hx2).1⟩
        rintro rfl
        exact hinot hx2
      have hcard : p.freeList.toFinset.card = p.freeList.length :=
        List.toFinset_card_of_nodup hnodup
      have hle : p.freeList.length ≤ ((Finset.range p.capacity).erase i).card :=
        hcard ▸ Finset.card_le_card hsub
      rw [Finset.card_erase_of_mem (Finset.mem_range.mpr hilt), Finset.card_range] at hle
      omega
    have hfree : SlotPoolFree p i =
        ({ p with
            data := zeroRange p.data (i * p.elementSize) p.elementSize
            occupied := p.occupied.set i false
            count := p.count - 1
            freeList := p.freeList ++ [i]
            totalDeallocations := p.totalDeallocations + 1 },
         true) := by
      unfold SlotPoolFree
      rw [if_neg]
      push_neg
      exact ⟨by omega, hocc⟩
    rw [hfree]
    have hbound : i * p.elementSize + p.elementSize ≤ p.data.length := by
      rw [hdataLen]
      have : (i + 1) * p.elementSize ≤ p.capacity * p.elementSize :=
        Nat.mul_le_mul_right _ (by omega)
      calc i * p.elementSize + p.elementSize = (i + 1) * p.elementSize := by ring
        _ ≤ p.capacity * p.elementSize := this
        _ = p.elementSize * p.capacity := by ring
    refine ⟨by simpa using hoccLen, ?_, ?_, ?_, ?_, ?_⟩
    · simpa using zeroRange_length _ _ _ hbound |>.trans hdataLen
    · simp only []
      rw [List.nodup_append]
      refine ⟨hnodup, by simp, ?_⟩
      intro x hx hx2
      have : x = i := by simpa using hx2
      subst this
      exact hinot hx
    · intro j hj
      simp only [List.mem_append] at hj ⊢
      rcases hj with hj | hj
      · have := hmem1 j hj
        have hji : i ≠ j := by
          rintro rfl
          exact hinot hj
        rw [getD_set_ne _ _ _ _ _ hji]
        exact this
      · have hji : j = i := by simpa using hj
        subst hji
        rw [getD_set_self _ _ _ _ (by omega)]
        exact ⟨hilt, rfl⟩
    · intro j hjlt hjocc
      simp only [List.mem_append]
      by_cases hje : j = i
      · exact Or.inr (by simp [hje])
      · rw [getD_set_ne _ _ _ _ _ (fun h => hje h.symm)] at hjocc
        exact Or.inl (hmem2 j hjlt hjocc)
    · simp only [List.length_append, List.length_singleton]
      omega

/-! ## Slot pool: claim theorems -/

/-- C7: the slot-pool state predicate — every allocated index has its
occupancy bit set, the free stack holds exactly the unoccupied indices with
no duplicates, and count = capacity - freeListTop — holds for every pool
returned by SlotPoolCreate and is preserved by every SlotPoolAlloc and
SlotPoolFree; moreover SlotPoolAlloc pops the top of the free stack and
SlotPoolFree zero-fills the element bytes while pushing the index back. -/
theorem slotPool_invariants :
    (∀ e c b, c ≤ UINT32_MOD → poolInv (SlotPoolCreate e c b)) ∧
    (∀ p, poolInv p → poolInv (SlotPoolAlloc p).1) ∧
    (∀ p i, poolInv p → poolInv (SlotPoolFree p i).1) ∧
    (∀ p, p.freeList ≠ [] →
      (SlotPoolAlloc p).2 = p.freeList.getLastD 0 ∧
      (SlotPoolAlloc p).1.freeList = p.freeList.dropLast) ∧
    (∀ p i, (SlotPoolFree p i).2 = true →
      (SlotPoolFree p i).1.data = zeroRange p.data (i * p.elementSize) p.elementSize ∧
      (SlotPoolFree p i).1.freeList = p.freeList ++ [i]) ∧
    (∀ p, poolInv p → p.count = p.capacity - p.freeListTop) := by
  refine ⟨fun e c b h => poolInv_create e c b h,
    fun p hp => poolInv_alloc p hp,
    fun p i hp => poolInv_free p i hp, ?_, ?_, ?_⟩
  · intro p hne
    have hlen : ¬p.freeList.length = 0 := fun h => hne (List.length_eq_zero.mp h)
    constructor
    · simp [SlotPoolAlloc, hlen]
    · simp [SlotPoolAlloc, hlen]
  · intro p i hfree
    by_cases hguard : i ≥ p.capacity ∨ p.occupied.getD i false = false
    · have : SlotPoolFree p i = (p, false) := by
        unfold SlotPoolFree
        rw [if_pos hguard]
      rw [this] at hfree
      exact absurd hfree (by simp)
    · have heq : SlotPoolFree p i =
          ({ p with
              data := zeroRange p.data (i * p.elementSize) p.elementSize
              occupied := p.occupied.set i false
              count := p.count - 1
              freeList := p.freeList ++ [i]
              totalDeallocations := p.totalDeallocations + 1 },
           true) := by
        unfold SlotPoolFree
        rw [if_neg hguard]
      rw [heq]
      exact ⟨rfl, rfl⟩
  · intro p hp
    have := hp.2.2.2.2.2
    unfold SlotPool.freeListTop
    omega

/-- C7 witness: the invariant and the pop/push behaviour at a concrete pool
(element size 8, capacity 2). -/
theorem slotPool_invariants_witness :
    poolInv (SlotPoolCreate 8 2 false) ∧
    poolInv (SlotPoolAlloc (SlotPoolCreate 8 2 false)).1 ∧
    poolInv (SlotPoolFree (SlotPoolAlloc (SlotPoolCreate 8 2 false)).1 1).1 ∧
    (SlotPoolAlloc (SlotPoolCreate 8 2 false)).2 =
      (SlotPoolCreate 8 2 false).freeList.getLastD 0 ∧
    (SlotPoolCreate 8 2 false).count = (SlotPoolCreate 8 2 false).capacity -
      SlotPool.freeListTop (SlotPoolCreate 8 2 false) :=
  ⟨slotPool_invariants.1 8 2 false (by decide),
   slotPool_invariants.2.1 (SlotPoolCreate 8 2 false) (by decide),
   slotPool_invariants.2.2.1 (SlotPoolAlloc (SlotPoolCreate 8 2 false)).1 1 (by decide),
   (slotPool_invariants.2.2.2.1 (SlotPoolCreate 8 2 false) (by decide)).1,
   slotPool_invariants.2.2.2.2.2 (SlotPoolCreate 8 2 false) (by decide)⟩

/-- C8: SlotPoolAlloc returns NULL_INDEX exactly when the free stack is
empty; SlotPoolFree returns false and leaves the pool unchanged on an
out-of-range or already-free index; and once a full pool has one index
freed, the next SlotPoolAlloc succeeds again (returning that index). -/
theorem slotPool_error_paths :
    (∀ p, poolInv p → p.capacity ≤ NULL_INDEX →
      ((SlotPoolAlloc p).2 = NULL_INDEX ↔ p.freeList = [])) ∧
    (∀ p i, (i ≥ p.capacity ∨ p.occupied.getD i false = false) →
      SlotPoolFree p i = (p, false)) ∧
    (∀ p i, poolInv p → p.capacity ≤ NULL_INDEX → p.freeList = [] →
      i < p.capacity → p.occupied.getD i false = true →
      (SlotPoolFree p i).2 = true ∧
      (SlotPoolAlloc (SlotPoolFree p i).1).2 = i ∧
      (SlotPoolAlloc (SlotPoolFree p i).1).2 ≠ NULL_INDEX) := by
  refine ⟨?_, ?_, ?_⟩
  · intro p hp hcap
    by_cases hempty : p.freeList.length = 0
    · simp [SlotPoolAlloc, hempty, List.length_eq_zero.mp hempty]
    · have hne : p.freeList ≠ [] := fun h => hempty (by simp [h])
      have hmem : p.freeList.getLastD 0 ∈ p.freeList := by
        rw [← dropLast_append_getLastD _ 0 hne]; simp
      have hlt : p.freeList.getLastD 0 < p.capacity := (hp.2.2.2.1 _ hmem).1
      simp only [SlotPoolAlloc, if_neg hempty]
      constructor
      · intro h
        exact absurd h (by unfold NULL_INDEX at hcap ⊢; omega)
      · intro h
        exact absurd h hne
  · intro p i hguard
    unfold SlotPoolFree
    rw [if_pos hguard]
  · intro p i hp hcap hempty hilt hocc
    have hguard : ¬(i ≥ p.capacity ∨ p.occupied.getD i false = false) := by
      push_neg
      exact ⟨by omega, by rw [hocc]; simp⟩
    have heq : SlotPoolFree p i =
        ({ p with
            data := zeroRange p.data (i * p.elementSize) p.elementSize
            occupied := p.occupied.set i false
            count := p.count - 1
            freeList := p.freeList ++ [i]
            totalDeallocations := p.totalDeallocations + 1 },
         true) := by
      unfold SlotPoolFree
      rw [if_neg hguard]
    rw [heq]
    refine ⟨rfl, ?_, ?_⟩
    · simp [SlotPoolAlloc, hempty]
    · simp only [SlotPoolAlloc, hempty]
      simp [hempty]
      unfold NULL_INDEX at hcap ⊢
      omega

/-- C8 witness: the three error behaviours at a concrete one-element pool. -/
theorem slotPool_error_paths_witness :
    ((SlotPoolAlloc (SlotPoolAlloc (SlotPoolCreate 8 1 false)).1).2 = NULL_INDEX ↔
      (SlotPoolAlloc (SlotPoolCreate 8 1 false)).1.freeList = []) ∧
    SlotPoolFree (SlotPoolCreate 8 1 false) 5 = (SlotPoolCreate 8 1 false, false) ∧
    (SlotPoolAlloc (SlotPoolFree (SlotPoolAlloc (SlotPoolCreate 8 1 false)).1 0).1).2 = 0 :=
  ⟨slotPool_error_paths.1 (SlotPoolAlloc (SlotPoolCreate 8 1 false)).1 (by decide) (by decide),
   slotPool_error_paths.2.1 (SlotPoolCreate 8 1 false) 5 (by decide),
   (slotPool_error_paths.2.2 (SlotPoolAlloc (SlotPoolCreate 8 1 false)).1 0 (by decide) (by decide)
      (by decide) (by decide) (by decide)).2.1⟩

/-! ## Slot manager: operation lemmas -/

theorem findSlot_eq_none (m : SlotManager) (h : SlotHandle)
    (hnone : ∀ i < m.slotTable.length, (m.slotTable.getD i default).occupied = true →
      (m.slotTable.getD i default).slotId ≠ h.slotId) :
    findSlot m h = none := by
  unfold findSlot
  rw [findFirstIdx_eq_none_iff]
  intro e he
  rcases (mem_iff_getD m.slotTable default e).mp he with ⟨i, hi, rfl⟩
  by_cases hocc : (m.slotTable.getD i default).occupied = true
  · have hne := hnone i hi hocc
    have hbeq : ((m.slotTable.getD i default).slotId == h.slotId) = false := by
      simpa using hne
    show ((m.slotTable.getD i default).slotId == h.slotId &&
      (m.slotTable.getD i default).occupied) = false
    rw [hbeq]
    rfl
  · have hocc2 : (m.slotTable.getD i default).occupied = false := by
      revert hocc
      cases (m.slotTable.getD i default).occupied <;> simp
    show ((m.slotTable.getD i default).slotId == h.slotId &&
      (m.slotTable.getD i default).occupied) = false
    rw [hocc2, Bool.and_false]

theorem findSlot_eq_some (m : SlotManager) (h : SlotHandle) (i : Nat)
    (hf : findSlot m h = some i) :
    i < m.slotTable.length ∧
    (m.slotTable.getD i default).occupied = true ∧
    (m.slotTable.getD i default).slotId = h.slotId := by
  rcases findFirstIdx_eq_some _ _ _ default hf with ⟨hlt, hpred⟩
  have hpred2 : ((m.slotTable.getD i default).slotId == h.slotId) = true ∧
      (m.slotTable.getD i default).occupied = true := by
    simpa using hpred
  exact ⟨hlt, hpred2.2, by simpa using hpred2.1⟩

theorem ops_fail_of_findSlot_none (m : SlotManager) (h : SlotHandle) (n k : Nat)
    (hf : findSlot m h = none) :
    (SlotWrite m h n).2 = SlotError.SLOT_ERROR_SLOT_NOT_FOUND ∧
    (SlotRead m h k).2.1 = SlotError.SLOT_ERROR_SLOT_NOT_FOUND ∧
    (SlotRelease m h).2 = SlotError.SLOT_ERROR_SLOT_NOT_FOUND := by
  unfold SlotWrite SlotRead SlotRelease
  rw [hf]
  exact ⟨rfl, rfl, rfl⟩

theorem slotWrite_success_entry (m : SlotManager) (h : SlotHandle) (n : Nat)
    (hs : (SlotWrite m h n).2 = SlotError.SLOT_SUCCESS) :
    ∃ i, i < m.slotTable.length ∧
      (m.slotTable.getD i default).occupied = true ∧
      (m.slotTable.getD i default).slotId = h.slotId ∧
      (m.slotTable.getD i default).typeTag = h.typeTag := by
  cases hfind : findSlot m h with
  | none =>
    rw [(ops_fail_of_findSlot_none m h n 0 hfind).1] at hs
    exact absurd hs (by simp)
  | some i =>
    rcases findSlot_eq_some m h i hfind with ⟨hlt, hocc, hsid⟩
    refine ⟨i, hlt, hocc, hsid, ?_⟩
    by_contra hne
    have : (SlotWrite m h n).2 = SlotError.SLOT_ERROR_TYPE_MISMATCH := by
      unfold SlotWrite
      rw [hfind]
      simp only [if_pos hne]
    rw [this] at hs
    exact absurd hs (by simp)

theorem slotRead_success_entry (m : SlotManager) (h : SlotHandle) (k : Nat)
    (hs : (SlotRead m h k).2.1 = SlotError.SLOT_SUCCESS) :
    ∃ i, i < m.slotTable.length ∧
      (m.slotTable.getD i default).occupied = true ∧
      (m.slotTable.getD i default).slotId = h.slotId ∧
      (m.slotTable.getD i default).typeTag = h.typeTag := by
  cases hfind : findSlot m h with
  | none =>
    rw [(ops_fail_of_findSlot_none m h 0 k hfind).2.1] at hs
    exact absurd hs (by simp)
  | some i =>
    rcases findSlot_eq_some m h i hfind with ⟨hlt, hocc, hsid⟩
    refine ⟨i, hlt, hocc, hsid, ?_⟩
    by_contra hne
    have : (SlotRead m h k).2.1 = SlotError.SLOT_ERROR_TYPE_MISMATCH := by
      unfold SlotRead
      rw [hfind]
      simp only [if_pos hne]
    rw [this] at hs
    exact absurd hs (by simp)

theorem slotRelease_success_entry (m : SlotManager) (h : SlotHandle)
    (hs : (SlotRelease m h).2 = SlotError.SLOT_SUCCESS) :
    ∃ i, i < m.slotTable.length ∧
      (m.slotTable.getD i default).occupied = true ∧
      (m.slotTable.getD i default).slotId = h.slotId := by
  cases hfind : findSlot m h with
  | none =>
    rw [(ops_fail_of_findSlot_none m h 0 0 hfind).2.2] at hs
    exact absurd hs (by simp)
  | some i =>
    exact ⟨i, findSlot_eq_some m h i hfind⟩

/-! ## Slot manager: C1 and C3 -/

/-- C1 amended: SlotWrite and SlotRead succeed only when the table has an
occupied entry matching the handle's slotId and typeTag, and SlotRelease
succeeds only when the table has an occupied entry matching the slotId (its
typeTag is not examined); when no occupied entry matches the slotId, all
three return SLOT_ERROR_SLOT_NOT_FOUND.  The handle's generation is never
consulted: each operation behaves identically on handles differing only in
generation. -/
theorem slotOps_ignore_generation (m : SlotManager) (h : SlotHandle) (g n k : Nat) :
    (SlotWrite m { h with generation := g } n = SlotWrite m h n) ∧
    (SlotRead m { h with generation := g } k = SlotRead m h k) ∧
    (SlotRelease m { h with generation := g } = SlotRelease m h) ∧
    ((SlotWrite m h n).2 = SlotError.SLOT_SUCCESS →
      ∃ i, i < m.slotTable.length ∧
        (m.slotTable.getD i default).occupied = true ∧
        (m.slotTable.getD i default).slotId = h.slotId ∧
        (m.slotTable.getD i default).typeTag = h.typeTag) ∧
    ((SlotRead m h k).2.1 = SlotError.SLOT_SUCCESS →
      ∃ i, i < m.slotTable.length ∧
        (m.slotTable.getD i default).occupied = true ∧
        (m.slotTable.getD i default).slotId = h.slotId ∧
        (m.slotTable.getD i default).typeTag = h.typeTag) ∧
    ((SlotRelease m h).2 = SlotError.SLOT_SUCCESS →
      ∃ i, i < m.slotTable.length ∧
        (m.slotTable.getD i default).occupied = true ∧
        (m.slotTable.getD i default).slotId = h.slotId) ∧
    ((∀ i < m.slotTable.length, (m.slotTable.getD i default).occupied = true →
        (m.slotTable.getD i default).slotId ≠ h.slotId) →
      (SlotWrite m h n).2 = SlotError.SLOT_ERROR_SLOT_NOT_FOUND ∧
      (SlotRead m h k).2.1 = SlotError.SLOT_ERROR_SLOT_NOT_FOUND ∧
      (SlotRelease m h).2 = SlotError.SLOT_ERROR_SLOT_NOT_FOUND) := by
  refine ⟨by cases h; rfl, by cases h; rfl, by cases h; rfl,
    slotWrite_success_entry m h n, slotRead_success_entry m h k,
    slotRelease_success_entry m h, ?_⟩
  intro hnone
  exact ops_fail_of_findSlot_none m h n k (findSlot_eq_none m h hnone)

/-- C1 witness: the amended theorem applied at a concrete manager holding
one claimed slot (type tag 0x2000, past the assembly fast-path range). -/
theorem slotOps_ignore_generation_witness :
    SlotWrite (SlotClaim (SlotManagerCreate 1 1024) 8192 0).1
        { slotId := 1, typeTag := 8192, generation := 7 } 8 =
      SlotWrite (SlotClaim (SlotManagerCreate 1 1024) 8192 0).1
        { slotId := 1, typeTag := 8192, generation := 1 } 8 ∧
    ((SlotRelease (SlotClaim (SlotManagerCreate 1 1024) 8192 0).1
        { slotId := 2, typeTag := 8192, generation := 1 }).2 =
      SlotError.SLOT_ERROR_SLOT_NOT_FOUND) :=
  ⟨(slotOps_ignore_generation (SlotClaim (SlotManagerCreate 1 1024) 8192 0).1
      { slotId := 1, typeTag := 8192, generation := 1 } 7 8 4).1,
   ((slotOps_ignore_generation (SlotClaim (SlotManagerCreate 1 1024) 8192 0).1
      { slotId := 2, typeTag := 8192, generation := 1 } 7 8 4).2.2.2.2.2.2
      (by decide)).2.2⟩

/-- C1 counterexample: on a manager holding the slot claimed with handle
(slotId 1, typeTag 0x2000, generation 1), the operations presented with
forged generations 999, 500 and 777 all succeed; under the claim, at most
one generation value can match the table, so these would have to return
SlotNotFound. -/
theorem slotOps_generation_cex :
    (SlotClaim (SlotManagerCreate 1 1024) 8192 0).2.2 =
      some { slotId := 1, typeTag := 8192, generation := 1 } ∧
    (SlotWrite (SlotClaim (SlotManagerCreate 1 1024) 8192 0).1
        { slotId := 1, typeTag := 8192, generation := 999 } 8).2 =
      SlotError.SLOT_SUCCESS ∧
    (SlotRead (SlotWrite (SlotClaim (SlotManagerCreate 1 1024) 8192 0).1
          { slotId := 1, typeTag := 8192, generation := 999 } 8).1
        { slotId := 1, typeTag := 8192, generation := 500 } 4).2.1 =
      SlotError.SLOT_SUCCESS ∧
    (SlotRelease (SlotWrite (SlotClaim (SlotManagerCreate 1 1024) 8192 0).1
          { slotId := 1, typeTag := 8192, generation := 999 } 8).1
        { slotId := 1, typeTag := 8192, generation := 777 }).2 =
      SlotError.SLOT_SUCCESS := by
  refine ⟨by decide, by decide, by decide, by decide⟩

/-- C3 amended: SlotClaim stamps every handle it returns with generation 1;
no generation state survives in the table entry (SlotRelease zeroes it), so
the reclaim sequence yields equal generations, not increasing ones. -/
theorem slotClaim_generation_always_one (m : SlotManager) (ty now : Nat) (h : SlotHandle)
    (hc : (SlotClaim m ty now).2.2 = some h) : h.generation = 1 := by
  cases hfind : findFirstIdx (fun e => !e.occupied) m.slotTable with
  | none =>
    unfold SlotClaim at hc
    rw [hfind] at hc
    exact absurd hc (by simp)
  | some i =>
    unfold SlotClaim at hc
    rw [hfind] at hc
    have : ({ slotId := m.nextSlotId, typeTag := ty, generation := 1 } : SlotHandle) = h := by
      simpa using hc
    rw [← this]

/-- C3 witness: the amended theorem applied to the claim on a fresh
maxSlots = 1 manager. -/
theorem slotClaim_generation_always_one_witness :
    SlotHandle.generation { slotId := 1, typeTag := 8192, generation := 1 } = 1 :=
  slotClaim_generation_always_one (SlotManagerCreate 1 1024) 8192 0
    { slotId := 1, typeTag := 8192, generation := 1 } (by decide)

/-- C3 counterexample: on a maxSlots = 1 manager, claim yields h1, release
h1, claim again yields h2; both handles carry generation 1 (they differ in
slotId instead), refuting h1.generation < h2.generation. -/
theorem slotClaim_generation_cex :
    (SlotClaim (SlotManagerCreate 1 1024) 8192 0).2.2 =
      some { slotId := 1, typeTag := 8192, generation := 1 } ∧
    (SlotRelease (SlotClaim (SlotManagerCreate 1 1024) 8192 0).1
        { slotId := 1, typeTag := 8192, generation := 1 }).2 = SlotError.SLOT_SUCCESS ∧
    (SlotClaim (SlotRelease (SlotClaim (SlotManagerCreate 1 1024) 8192 0).1
          { slotId := 1, typeTag := 8192, generation := 1 }).1 8192 0).2.2 =
      some { slotId := 2, typeTag := 8192, generation := 1 } ∧
    ¬(SlotHandle.generation { slotId := 1, typeTag := 8192, generation := 1 } <
      SlotHandle.generation { slotId := 2, typeTag := 8192, generation := 1 }) := by
  refine ⟨by decide, by decide, by decide, by decide⟩

/-! ## Slot manager: state characterization of each operation -/

theorem slotClaim_state (m : SlotManager) (ty now : Nat) :
    SlotClaim m ty now = (m, SlotError.SLOT_ERROR_OUT_OF_MEMORY, none) ∨
    ∃ i, i < m.slotTable.length ∧ (m.slotTable.getD i default).occupied = false ∧
      SlotClaim m ty now =
        ({ m with
            slotTable := m.slotTable.set i
              { slotId := m.nextSlotId, typeTag := ty, occupied := true, dataBlockRef := none,
                ttl := 0, threadAffinity := 0, allocationTime := now }
            nextSlotId := (m.nextSlotId + 1) % UINT32_MOD
            totalAllocations := m.totalAllocations + 1
            activeSlots := m.activeSlots + 1 },
         SlotError.SLOT_SUCCESS,
         some { slotId := m.nextSlotId, typeTag := ty, generation := 1 }) := by
  cases hfind : findFirstIdx (fun e => !e.occupied) m.slotTable with
  | none =>
    left
    unfold SlotClaim
    rw [hfind]
  | some i =>
    right
    rcases findFirstIdx_eq_some _ _ _ default hfind with ⟨hlt, hpred⟩
    refine ⟨i, hlt, by simpa using hpred, ?_⟩
    unfold SlotClaim
    rw [hfind]

theorem slotWrite_state (m : SlotManager) (h : SlotHandle) (n : Nat) :
    (SlotWrite m h n).1 = m ∨
    (∃ pool, (SlotWrite m h n).1 = { m with memoryPool := pool }) ∨
    (∃ i b pool, i < m.slotTable.length ∧
      (SlotWrite m h n).1 =
        { m with
            memoryPool := pool
            slotTable := m.slotTable.set i
              { slotId := (m.slotTable.getD i default).slotId
                typeTag := (m.slotTable.getD i default).typeTag
                occupied := (m.slotTable.getD i default).occupied
                dataBlockRef := some b
                ttl := (m.slotTable.getD i default).ttl
                threadAffinity := (m.slotTable.getD i default).threadAffinity
                allocationTime := (m.slotTable.getD i default).allocationTime } }) := by
  cases hfind : findSlot m h with
  | none =>
    left
    unfold SlotWrite
    rw [hfind]
  | some i =>
    have hlt := (findSlot_eq_some m h i hfind).1
    unfold SlotWrite
    rw [hfind]
    by_cases htag : (m.slotTable.getD i default).typeTag ≠ h.typeTag
    · left
      simp only [if_pos htag]
    · simp only [if_neg htag]
      cases hdref : (m.slotTable.getD i default).dataBlockRef with
      | some b => left; rfl
      | none =>
        cases halloc : AllocateMemoryBlock m.memoryPool n with
        | mk pool ob =>
          cases ob with
          | some b =>
            right; right
            exact ⟨i, b, pool, hlt, rfl⟩
          | none =>
            right; left
            exact ⟨pool, rfl⟩

theorem slotRead_state (m : SlotManager) (h : SlotHandle) (k : Nat) :
    (SlotRead m h k).1.slotTable = m.slotTable ∧
    (SlotRead m h k).1.nextSlotId = m.nextSlotId ∧
    (SlotRead m h k).1.totalAllocations = m.totalAllocations := by
  cases hfind : findSlot m h with
  | none =>
    unfold SlotRead
    rw [hfind]
    simp
  | some i =>
    unfold SlotRead
    rw [hfind]
    by_cases htag : (m.slotTable.getD i default).typeTag ≠ h.typeTag
    · simp only [if_pos htag]
      simp
    · simp only [if_neg htag]
      cases hdref : (m.slotTable.getD i default).dataBlockRef with
      | none => simp
      | some b => simp

theorem slotRelease_state (m : SlotManager) (h : SlotHandle) :
    (SlotRelease m h).1 = m ∨
    (∃ i pool, i < m.slotTable.length ∧
      (SlotRelease m h).1 =
        { m with
            memoryPool := pool
            slotTable := m.slotTable.set i SlotEntry.cleared
            totalDeallocations := m.totalDeallocations + 1
            activeSlots := m.activeSlots - 1 }) := by
  cases hfind : findSlot m h with
  | none =>
    left
    unfold SlotRelease
    rw [hfind]
  | some i =>
    right
    have hlt := (findSlot_eq_some m h i hfind).1
    unfold SlotRelease
    rw [hfind]
    exact ⟨i, _, hlt, rfl⟩

/-! ## Slot manager: invariant preservation -/

theorem managerInv_of_fields_eq (m m2 : SlotManager)
    (hnext : m2.nextSlotId = m.nextSlotId)
    (halloc : m2.totalAllocations = m.totalAllocations)
    (hlen : m2.slotTable.length = m.slotTable.length)
    (hfields : ∀ j < m.slotTable.length,
      ((m2.slotTable.getD j default).occupied = (m.slotTable.getD j default).occupied ∧
       (m2.slotTable.getD j default).slotId = (m.slotTable.getD j default).slotId) ∨
      (m2.slotTable.getD j default).occupied = false)
    (hp : managerInv m) : managerInv m2 := by
  obtain ⟨h1, h2⟩ := hp
  refine ⟨by rw [hnext, halloc, h1], ?_⟩
  intro hbound
  rw [halloc] at hbound
  obtain ⟨hb, hd⟩ := h2 hbound
  constructor
  · intro j hj hocc
    rw [hlen] at hj
    rcases hfields j hj with ⟨ho, hs⟩ | ho
    · rw [ho] at hocc
      rw [hs, halloc]
      exact hb j hj hocc
    · rw [ho] at hocc
      exact absurd hocc (by simp)
  · intro j hj k hk hjk hoj hok
    rw [hlen] at hj hk
    rcases hfields j hj with ⟨hoj2, hsj⟩ | hoj2
    · rcases hfields k hk with ⟨hok2, hsk⟩ | hok2
      · rw [hsj, hsk]
        rw [hoj2] at hoj
        rw [hok2] at hok
        exact hd j hj k hk hjk hoj hok
      · rw [hok2] at hok
        exact absurd hok (by simp)
    · rw [hoj2] at hoj
      exact absurd hoj (by simp)

theorem released_of_fields_eq (m m2 : SlotManager) (s : Nat)
    (halloc : m.totalAllocations ≤ m2.totalAllocations)
    (hlen : m2.slotTable.length = m.slotTable.length)
    (hfields : ∀ j < m.slotTable.length,
      ((m2.slotTable.getD j default).occupied = (m.slotTable.getD j default).occupied ∧
       (m2.slotTable.getD j default).slotId = (m.slotTable.getD j default).slotId) ∨
      (m2.slotTable.getD j default).occupied = false)
    (hr : released m s) : released m2 s := by
  obtain ⟨h0, h1, h2⟩ := hr
  refine ⟨h0, le_trans h1 halloc, ?_⟩
  intro j hj hocc
  rw [hlen] at hj
  rcases hfields j hj with ⟨ho, hs⟩ | ho
  · rw [ho] at hocc
    rw [hs]
    exact h2 j hj hocc
  · rw [ho] at hocc
    exact absurd hocc (by simp)

theorem set_fields_cases (t : List SlotEntry) (i j : Nat) (e : SlotEntry)
    (hj : j < t.length) :
    (j = i ∧ (t.set i e).getD j default = e) ∨
    (j ≠ i ∧ (t.set i e).getD j default = t.getD j default) := by
  by_cases hij : j = i
  · subst hij
    left
    exact ⟨rfl, getD_set_self t j e default hj⟩
  · right
    exact ⟨hij, getD_set_ne t i j e default (fun hh => hij hh.symm)⟩

theorem managerInv_create (maxSlots poolSize : Nat) :
    managerInv (SlotManagerCreate maxSlots poolSize) := by
  constructor
  · show 1 = (1 + 0) % UINT32_MOD
    unfold UINT32_MOD
    omega
  · intro _
    constructor
    · intro j hj hocc
      have hlen : (SlotManagerCreate maxSlots poolSize).slotTable.length = maxSlots := by
        simp [SlotManagerCreate]
      rw [hlen] at hj
      have : (SlotManagerCreate maxSlots poolSize).slotTable.getD j default =
          SlotEntry.cleared := getD_replicate_lt _ _ _ _ hj
      rw [this] at hocc
      exact absurd hocc (by simp [SlotEntry.cleared])
    · intro j hj k hk _ hocc _
      have hlen : (SlotManagerCreate maxSlots poolSize).slotTable.length = maxSlots := by
        simp [SlotManagerCreate]
      rw [hlen] at hj
      have : (SlotManagerCreate maxSlots poolSize).slotTable.getD j default =
          SlotEntry.cleared := getD_replicate_lt _ _ _ _ hj
      rw [this] at hocc
      exact absurd hocc (by simp [SlotEntry.cleared])

theorem managerInv_claim_aux (m : SlotManager) (i ty now : Nat)
    (hp : managerInv m) :
    managerInv
      { m with
          slotTable := m.slotTable.set i
            { slotId := m.nextSlotId, typeTag := ty, occupied := true, dataBlockRef := none,
              ttl := 0, threadAffinity := 0, allocationTime := now }
          nextSlotId := (m.nextSlotId + 1) % UINT32_MOD
          totalAllocations := m.totalAllocations + 1
          activeSlots := m.activeSlots + 1 } := by
  obtain ⟨h1, h2⟩ := hp
  unfold managerInv
  dsimp only
  constructor
  · rw [h1, Nat.mod_add_mod, Nat.add_assoc]
  · intro hbound
    have hmod : m.nextSlotId = 1 + m.totalAllocations := by
      rw [h1]
      exact Nat.mod_eq_of_lt (by omega)
    obtain ⟨hb, hd⟩ := h2 (by omega)
    constructor
    · intro j hj hoccj
      rw [List.length_set] at hj
      rcases set_fields_cases m.slotTable i j
          { slotId := m.nextSlotId, typeTag := ty, occupied := true, dataBlockRef := none,
            ttl := 0, threadAffinity := 0, allocationTime := now } hj with ⟨rfl, hset⟩ | ⟨hjne, hset⟩
      · rw [hset]
        dsimp only
        omega
      · rw [hset] at hoccj ⊢
        have := hb j hj hoccj
        omega
    · intro j hj k hk hjk hoccj hocck
      rw [List.length_set] at hj hk
      rcases set_fields_cases m.slotTable i j
          { slotId := m.nextSlotId, typeTag := ty, occupied := true, dataBlockRef := none,
            ttl := 0, threadAffinity := 0, allocationTime := now } hj with ⟨rfl, hsetj⟩ | ⟨hjne, hsetj⟩
      · rcases set_fields_cases m.slotTable j k
            { slotId := m.nextSlotId, typeTag := ty, occupied := true, dataBlockRef := none,
              ttl := 0, threadAffinity := 0, allocationTime := now } hk with ⟨rfl, hsetk⟩ | ⟨hkne, hsetk⟩
        · exact absurd rfl hjk
        · rw [hsetk] at hocck ⊢
          rw [hsetj]
          dsimp only
          have := hb k hk hocck
          omega
      · rcases set_fields_cases m.slotTable i k
            { slotId := m.nextSlotId, typeTag := ty, occupied := true, dataBlockRef := none,
              ttl := 0, threadAffinity := 0, allocationTime := now } hk with ⟨rfl, hsetk⟩ | ⟨hkne, hsetk⟩
        · rw [hsetj] at hoccj ⊢
          rw [hsetk]
          dsimp only
          have := hb j hj hoccj
          omega
        · rw [hsetj] at hoccj ⊢
          rw [hsetk] at hocck ⊢
          exact hd j hj k hk hjk hoccj hocck

theorem managerInv_claim (m : SlotManager) (ty now : Nat) (hp : managerInv m) :
    managerInv (SlotClaim m ty now).1 := by
  rcases slotClaim_state m ty now with hcase | ⟨i, hlt, hocc, hcase⟩
  · rw [hcase]
    exact hp
  · rw [hcase]
    exact managerInv_claim_aux m i ty now hp

theorem managerInv_write (m : SlotManager) (h : SlotHandle) (n : Nat) (hp : managerInv m) :
    managerInv (SlotWrite m h n).1 := by
  rcases slotWrite_state m h n with hcase | ⟨pool, hcase⟩ | ⟨i, b, pool, hlt, hcase⟩
  · rw [hcase]; exact hp
  · rw [hcase]
    exact managerInv_of_fields_eq m _ rfl rfl rfl (fun j _ => Or.inl ⟨rfl, rfl⟩) hp
  · rw [hcase]
    refine managerInv_of_fields_eq m _ rfl rfl (by simp) ?_ hp
    intro j hj
    rcases set_fields_cases m.slotTable i j
        { slotId := (m.slotTable.getD i default).slotId
          typeTag := (m.slotTable.getD i default).typeTag
          occupied := (m.slotTable.getD i default).occupied
          dataBlockRef := some b
          ttl := (m.slotTable.getD i default).ttl
          threadAffinity := (m.slotTable.getD i default).threadAffinity
          allocationTime := (m.slotTable.getD i default).allocationTime } hj with
      ⟨rfl, hset⟩ | ⟨hjne, hset⟩
    · left
      rw [hset]
      exact ⟨rfl, rfl⟩
    · left
      rw [hset]
      exact ⟨rfl, rfl⟩

theorem managerInv_read (m : SlotManager) (h : SlotHandle) (k : Nat) (hp : managerInv m) :
    managerInv (SlotRead m h k).1 := by
  obtain ⟨ht, hn, ha⟩ := slotRead_state m h k
  exact managerInv_of_fields_eq m _ hn ha (by rw [ht]) (fun j _ => Or.inl (by rw [ht]; exact ⟨rfl, rfl⟩)) hp

theorem managerInv_release (m : SlotManager) (h : SlotHandle) (hp : managerInv m) :
    managerInv (SlotRelease m h).1 := by
  rcases slotRelease_state m h with hcase | ⟨i, pool, hlt, hcase⟩
  · rw [hcase]; exact hp
  · rw [hcase]
    refine managerInv_of_fields_eq m _ rfl rfl (by simp) ?_ hp
    intro j hj
    rcases set_fields_cases m.slotTable i j SlotEntry.cleared hj with ⟨rfl, hset⟩ | ⟨hjne, hset⟩
    · right
      rw [hset]
      rfl
    · left
      rw [hset]
      exact ⟨rfl, rfl⟩

theorem managerInv_step (m : SlotManager) (op : SlotOp) (hp : managerInv m) :
    managerInv (runOp m op).1 := by
  cases op with
  | claim ty now => exact managerInv_claim m ty now hp
  | write h n => exact managerInv_write m h n hp
  | read h k => exact managerInv_read m h k hp
  | release h => exact managerInv_release m h hp

theorem managerInv_run (m : SlotManager) (ops : List SlotOp) (hp : managerInv m) :
    managerInv (runTrace m ops) := by
  induction ops generalizing m with
  | nil => exact hp
  | cons op rest ih => exact ih _ (managerInv_step m op hp)

theorem runOp_totalAlloc_ge (m : SlotManager) (op : SlotOp) :
    m.totalAllocations ≤ (runOp m op).1.totalAllocations := by
  cases op with
  | claim ty now =>
    rcases slotClaim_state m ty now with hcase | ⟨i, _, _, hcase⟩
    · show m.totalAllocations ≤ (SlotClaim m ty now).1.totalAllocations
      rw [hcase]
    · show m.totalAllocations ≤ (SlotClaim m ty now).1.totalAllocations
      rw [hcase]
      exact Nat.le_succ _
  | write h n =>
    rcases slotWrite_state m h n with hcase | ⟨pool, hcase⟩ | ⟨i, b, pool, _, hcase⟩ <;>
      simp [runOp, hcase]
  | read h k =>
    have := (slotRead_state m h k).2.2
    simp [runOp, this]
  | release h =>
    rcases slotRelease_state m h with hcase | ⟨i, pool, _, hcase⟩ <;>
      simp [runOp, hcase]

theorem runTrace_totalAlloc_ge (m : SlotManager) (ops : List SlotOp) :
    m.totalAllocations ≤ (runTrace m ops).totalAllocations := by
  induction ops generalizing m with
  | nil => exact le_refl _
  | cons op rest ih => exact le_trans (runOp_totalAlloc_ge m op) (ih _)

theorem runTrace_append (m : SlotManager) (l1 l2 : List SlotOp) :
    runTrace m (l1 ++ l2) = runTrace (runTrace m l1) l2 := by
  induction l1 generalizing m with
  | nil => rfl
  | cons op rest ih =>
    show runTrace (runOp m op).1 (rest ++ l2) = _
    rw [ih]
    rfl

/-! ## Slot manager: dead slot ids stay dead -/

theorem slotRelease_totalAlloc (m : SlotManager) (h : SlotHandle) :
    (SlotRelease m h).1.totalAllocations = m.totalAllocations := by
  rcases slotRelease_state m h with hcase | ⟨i, pool, _, hcase⟩ <;> rw [hcase]

theorem released_claim (m : SlotManager) (ty now s : Nat)
    (hp : managerInv m) (hr : released m s)
    (hb : (SlotClaim m ty now).1.totalAllocations < UINT32_MOD) :
    released (SlotClaim m ty now).1 s := by
  rcases slotClaim_state m ty now with hcase | ⟨i, hlt, hocc, hcase⟩
  · rw [hcase]
    exact hr
  · rw [hcase] at hb ⊢
    have hb2 : m.totalAllocations + 1 < UINT32_MOD := hb
    have hmod : m.nextSlotId = 1 + m.totalAllocations := by
      rw [hp.1]
      exact Nat.mod_eq_of_lt (by omega)
    obtain ⟨h0, h1, h2⟩ := hr
    refine ⟨h0, by dsimp only; omega, ?_⟩
    intro j hj hoccj
    dsimp only at hj hoccj ⊢
    rw [List.length_set] at hj
    rcases set_fields_cases m.slotTable i j
        { slotId := m.nextSlotId, typeTag := ty, occupied := true, dataBlockRef := none,
          ttl := 0, threadAffinity := 0, allocationTime := now } hj with ⟨rfl, hset⟩ | ⟨hjne, hset⟩
    · rw [hset]
      dsimp only
      omega
    · rw [hset] at hoccj ⊢
      exact h2 j hj hoccj

theorem released_step (m : SlotManager) (op : SlotOp) (s : Nat)
    (hp : managerInv m) (hr : released m s)
    (hb : (runOp m op).1.totalAllocations < UINT32_MOD) :
    released (runOp m op).1 s := by
  cases op with
  | claim ty now => exact released_claim m ty now s hp hr hb
  | write h n =>
    rcases slotWrite_state m h n with hcase | ⟨pool, hcase⟩ | ⟨i, b, pool, hlt, hcase⟩
    · show released (SlotWrite m h n).1 s
      rw [hcase]
      exact hr
    · show released (SlotWrite m h n).1 s
      rw [hcase]
      exact released_of_fields_eq m _ s (le_refl _) rfl (fun j _ => Or.inl ⟨rfl, rfl⟩) hr
    · show released (SlotWrite m h n).1 s
      rw [hcase]
      refine released_of_fields_eq m _ s (le_refl _) (by simp) ?_ hr
      intro j hj
      rcases set_fields_cases m.slotTable i j
          { slotId := (m.slotTable.getD i default).slotId
            typeTag := (m.slotTable.getD i default).typeTag
            occupied := (m.slotTable.getD i default).occupied
            dataBlockRef := some b
            ttl := (m.slotTable.getD i default).ttl
            threadAffinity := (m.slotTable.getD i default).threadAffinity
            allocationTime := (m.slotTable.getD i default).allocationTime } hj with
        ⟨rfl, hset⟩ | ⟨hjne, hset⟩
      · left
        rw [hset]
        exact ⟨rfl, rfl⟩
      · left
        rw [hset]
        exact ⟨rfl, rfl⟩
  | read h k =>
    obtain ⟨ht, hn, ha⟩ := slotRead_state m h k
    show released (SlotRead m h k).1 s
    exact released_of_fields_eq m _ s (le_of_eq ha.symm) (by rw [ht])
      (fun j _ => Or.inl (by rw [ht]; exact ⟨rfl, rfl⟩)) hr
  | release h =>
    rcases slotRelease_state m h with hcase | ⟨i, pool, hlt, hcase⟩
    · show released (SlotRelease m h).1 s
      rw [hcase]
      exact hr
    · show released (SlotRelease m h).1 s
      rw [hcase]
      refine released_of_fields_eq m _ s (le_refl _) (by simp) ?_ hr
      intro j hj
      rcases set_fields_cases m.slotTable i j SlotEntry.cleared hj with ⟨rfl, hset⟩ | ⟨hjne, hset⟩
      · right
        rw [hset]
        rfl
      · left
        rw [hset]
        exact ⟨rfl, rfl⟩

theorem released_run (m : SlotManager) (ops : List SlotOp) (s : Nat)
    (hp : managerInv m) (hr : released m s)
    (hb : (runTrace m ops).totalAllocations < UINT32_MOD) :
    released (runTrace m ops) s := by
  induction ops generalizing m with
  | nil => exact hr
  | cons op rest ih =>
    have hb1 : (runOp m op).1.totalAllocations < UINT32_MOD :=
      lt_of_le_of_lt (runTrace_totalAlloc_ge _ rest) hb
    exact ih _ (managerInv_step m op hp) (released_step m op s hp hr hb1) hb

theorem slotRelease_success_released (m : SlotManager) (h : SlotHandle)
    (hp : managerInv m) (hm : m.totalAllocations < UINT32_MOD)
    (hrel : (SlotRelease m h).2 = SlotError.SLOT_SUCCESS) :
    released (SlotRelease m h).1 h.slotId := by
  cases hfind : findSlot m h with
  | none =>
    rw [(ops_fail_of_findSlot_none m h 0 0 hfind).2.2] at hrel
    exact absurd hrel (by simp)
  | some i =>
    rcases findSlot_eq_some m h i hfind with ⟨hlt, hocc, hsid⟩
    have htab : (SlotRelease m h).1.slotTable = m.slotTable.set i SlotEntry.cleared := by
      unfold SlotRelease
      rw [hfind]
    have halloc : (SlotRelease m h).1.totalAllocations = m.totalAllocations :=
      slotRelease_totalAlloc m h
    obtain ⟨hb, hd⟩ := hp.2 hm
    have hid := hb i hlt hocc
    refine ⟨by omega, by omega, ?_⟩
    intro j hj hoccj
    rw [htab, List.length_set] at hj
    rw [htab] at hoccj
    rcases set_fields_cases m.slotTable i j SlotEntry.cleared hj with ⟨rfl, hset⟩ | ⟨hjne, hset⟩
    · rw [hset] at hoccj
      exact absurd hoccj (by simp [SlotEntry.cleared])
    · rw [htab, hset]
      rw [hset] at hoccj
      have := hd j hj i hlt hjne hoccj hocc
      rw [hsid] at this
      exact this

/-! ## Slot manager: C2 -/

/-- C2 amended: as long as the manager performs fewer than 2^32 successful
claims in its whole history, a handle whose SlotRelease succeeded can never
be used again: after any further operations, SlotWrite, SlotRead and
SlotRelease with that handle all return SLOT_ERROR_SLOT_NOT_FOUND.  (The
code never issues a stale-generation error; the slot id itself is never
reused below the uint32 wrap of the id counter.) -/
theorem slotRelease_is_permanent (maxSlots poolSize : Nat) (ops1 ops2 : List SlotOp)
    (h : SlotHandle) (n k : Nat) (m2 : SlotManager)
    (hrel : SlotRelease (runTrace (SlotManagerCreate maxSlots poolSize) ops1) h =
      (m2, SlotError.SLOT_SUCCESS))
    (hbound : (runTrace m2 ops2).totalAllocations < UINT32_MOD) :
    (SlotWrite (runTrace m2 ops2) h n).2 = SlotError.SLOT_ERROR_SLOT_NOT_FOUND ∧
    (SlotRead (runTrace m2 ops2) h k).2.1 = SlotError.SLOT_ERROR_SLOT_NOT_FOUND ∧
    (SlotRelease (runTrace m2 ops2) h).2 = SlotError.SLOT_ERROR_SLOT_NOT_FOUND := by
  have hinv1 : managerInv (runTrace (SlotManagerCreate maxSlots poolSize) ops1) :=
    managerInv_run _ _ (managerInv_create maxSlots poolSize)
  have hm2eq : (SlotRelease (runTrace (SlotManagerCreate maxSlots poolSize) ops1) h).1 = m2 := by
    rw [hrel]
  have hsucc : (SlotRelease (runTrace (SlotManagerCreate maxSlots poolSize) ops1) h).2 =
      SlotError.SLOT_SUCCESS := by
    rw [hrel]
  have halloc1 : (runTrace (SlotManagerCreate maxSlots poolSize) ops1).totalAllocations <
      UINT32_MOD := by
    have he : (SlotRelease (runTrace (SlotManagerCreate maxSlots poolSize) ops1) h).1.totalAllocations =
        (runTrace (SlotManagerCreate maxSlots poolSize) ops1).totalAllocations :=
      slotRelease_totalAlloc _ h
    rw [hm2eq] at he
    have := runTrace_totalAlloc_ge m2 ops2
    omega
  have hrel2 : released m2 h.slotId := by
    rw [← hm2eq]
    exact slotRelease_success_released _ h hinv1 halloc1 hsucc
  have hinv2 : managerInv m2 := by
    rw [← hm2eq]
    exact managerInv_release _ h hinv1
  have hrelf : released (runTrace m2 ops2) h.slotId :=
    released_run m2 ops2 h.slotId hinv2 hrel2 hbound
  exact ops_fail_of_findSlot_none _ h n k
    (findSlot_eq_none _ h (fun i hi ho => hrelf.2.2 i hi ho))

/-- C2 witness: the amended theorem at a concrete maxSlots = 1 manager:
claim, release, then one more claim; the stale handle then fails all three
operations. -/
theorem slotRelease_is_permanent_witness :
    (SlotWrite (runTrace (cycleState 64 1) [SlotOp.claim 8192 5])
        { slotId := 1, typeTag := 8192, generation := 1 } 8).2 =
      SlotError.SLOT_ERROR_SLOT_NOT_FOUND ∧
    (SlotRead (runTrace (cycleState 64 1) [SlotOp.claim 8192 5])
        { slotId := 1, typeTag := 8192, generation := 1 } 4).2.1 =
      SlotError.SLOT_ERROR_SLOT_NOT_FOUND ∧
    (SlotRelease (runTrace (cycleState 64 1) [SlotOp.claim 8192 5])
        { slotId := 1, typeTag := 8192, generation := 1 }).2 =
      SlotError.SLOT_ERROR_SLOT_NOT_FOUND :=
  slotRelease_is_permanent 1 64 [SlotOp.claim 8192 0] [SlotOp.claim 8192 5]
    { slotId := 1, typeTag := 8192, generation := 1 } 8 4 (cycleState 64 1)
    (by decide) (by decide)

/-! ## Slot manager: the claim/release cycle in closed form -/

theorem cycle_step (poolSize ty k : Nat) :
    runTrace (cycleState poolSize k)
      [SlotOp.claim ty 0,
       SlotOp.release { slotId := (1 + k) % UINT32_MOD, typeTag := ty, generation := 1 }] =
    cycleState poolSize (k + 1) := by
  show (SlotRelease (SlotClaim (cycleState poolSize k) ty 0).1
      { slotId := (1 + k) % UINT32_MOD, typeTag := ty, generation := 1 }).1 =
    cycleState poolSize (k + 1)
  have h1 : (SlotClaim (cycleState poolSize k) ty 0).1 = cycleClaimedState poolSize ty k := rfl
  rw [h1]
  have h2 : findSlot (cycleClaimedState poolSize ty k)
      { slotId := (1 + k) % UINT32_MOD, typeTag := ty, generation := 1 } = some 0 := by
    unfold cycleClaimedState findSlot findFirstIdx
    simp
  unfold SlotRelease
  rw [h2]
  show ({ slotTable := [SlotEntry.cleared]
          maxSlots := 1
          nextSlotId := ((1 + k) % UINT32_MOD + 1) % UINT32_MOD
          memoryPool :=
            { blockSize := 64
              totalBlocks := poolSize / 64
              freeBlocks := List.replicate (poolSize / 64) false }
          totalAllocations := k + 1
          totalDeallocations := k + 1
          activeSlots := 0
          cacheHits := 0
          cacheMisses := 0 } : SlotManager) = cycleState poolSize (k + 1)
  unfold cycleState
  congr 1
  rw [Nat.mod_add_mod, Nat.add_assoc]

theorem runTrace_cycleSeg (poolSize ty k n : Nat) :
    runTrace (cycleState poolSize k) (cycleSeg ty k n) = cycleState poolSize (k + n) := by
  induction n generalizing k with
  | zero => rfl
  | succ n ih =>
    have hsplit : cycleSeg ty k (n + 1) =
        [SlotOp.claim ty 0,
         SlotOp.release { slotId := (1 + k) % UINT32_MOD, typeTag := ty, generation := 1 }] ++
        cycleSeg ty (k + 1) n := rfl
    rw [hsplit, runTrace_append, cycle_step, ih (k + 1)]
    congr 1
    omega

/-- C2 counterexample: on a maxSlots = 1 manager the handle of the very
first claim (slot id 1) is released successfully, yet after 2^32 - 1
further claim/release cycles wrap the uint32 slot-id counter, one more
claim re-issues slot id 1 and SlotWrite through the long-released handle
succeeds again, refuting the claim that no operation with it ever succeeds
again. -/
theorem slotRelease_resurrection_cex :
    (SlotClaim (SlotManagerCreate 1 1024) 8192 0).2.2 =
      some { slotId := 1, typeTag := 8192, generation := 1 } ∧
    (SlotRelease (SlotClaim (SlotManagerCreate 1 1024) 8192 0).1
        { slotId := 1, typeTag := 8192, generation := 1 }).2 = SlotError.SLOT_SUCCESS ∧
    (SlotWrite
        (runTrace (SlotRelease (SlotClaim (SlotManagerCreate 1 1024) 8192 0).1
            { slotId := 1, typeTag := 8192, generation := 1 }).1
          (cycleSeg 8192 1 (UINT32_MOD - 1) ++ [SlotOp.claim 8192 0]))
        { slotId := 1, typeTag := 8192, generation := 1 } 8).2 = SlotError.SLOT_SUCCESS := by
  refine ⟨by decide, by decide, ?_⟩
  have hm2 : (SlotRelease (SlotClaim (SlotManagerCreate 1 1024) 8192 0).1
      { slotId := 1, typeTag := 8192, generation := 1 }).1 = cycleState 1024 1 := by decide
  rw [hm2, runTrace_append, runTrace_cycleSeg]
  have hsum : 1 + (UINT32_MOD - 1) = UINT32_MOD := by
    unfold UINT32_MOD
    omega
  rw [hsum]
  decide

/-- C10 counterexample: two distinct successful SlotClaim calls on the same
manager can return equal slot ids (the first claim and the claim after 2^32
full claim/release cycles both yield slot id 1), and the claim after
2^32 - 1 cycles is issued the slot id 0, refuting both the distinctness and
the nonzero part of the claim. -/
theorem slotClaim_id_reuse_cex :
    (SlotClaim (SlotManagerCreate 1 1024) 8192 0).2.2 =
      some { slotId := 1, typeTag := 8192, generation := 1 } ∧
    (SlotClaim (runTrace (SlotManagerCreate 1 1024) (cycleSeg 8192 0 UINT32_MOD)) 8192 0).2.2 =
      some { slotId := 1, typeTag := 8192, generation := 1 } ∧
    (SlotClaim (runTrace (SlotManagerCreate 1 1024) (cycleSeg 8192 0 (UINT32_MOD - 1)))
        8192 0).2.2 =
      some { slotId := 0, typeTag := 8192, generation := 1 } := by
  have hm0 : SlotManagerCreate 1 1024 = cycleState 1024 0 := by decide
  refine ⟨by decide, ?_, ?_⟩
  · rw [hm0, runTrace_cycleSeg, Nat.zero_add]
    decide
  · rw [hm0, runTrace_cycleSeg, Nat.zero_add]
    decide

/-! ## Slot manager: C10 -/

theorem runTrace_take_mono (m : SlotManager) (ops : List SlotOp) (a b : Nat) (hab : a ≤ b) :
    (runTrace m (ops.take a)).totalAllocations ≤ (runTrace m (ops.take b)).totalAllocations := by
  have h1 : ops.take b = ops.take (a + (b - a)) := by
    congr 1
    omega
  rw [h1, List.take_add, runTrace_append]
  exact runTrace_totalAlloc_ge _ _

theorem traceOutputs_claim_slotId (m : SlotManager) (ops : List SlotOp) (i : Nat)
    (e : SlotError) (h : SlotHandle)
    (hinv : managerInv m)
    (hbound : (runTrace m ops).totalAllocations < UINT32_MOD)
    (hout : (traceOutputs m ops).getD i (default, none) = (e, some h)) :
    h.slotId = (runTrace m (ops.take (i + 1))).totalAllocations ∧
    (runTrace m (ops.take i)).totalAllocations <
      (runTrace m (ops.take (i + 1))).totalAllocations := by
  induction ops generalizing m i with
  | nil =>
    have : (default, (none : Option SlotHandle)) = (e, some h) := hout
    have h2 := congrArg Prod.snd this
    exact absurd h2 (by simp)
  | cons op rest ih =>
    cases i with
    | zero =>
      have hout0 : ((runOp m op).2.1, (runOp m op).2.2) = (e, some h) := hout
      have hsnd : (runOp m op).2.2 = some h := congrArg Prod.snd hout0
      cases op with
      | claim ty now =>
        rcases slotClaim_state m ty now with hcase | ⟨idx, hlt, hocc, hcase⟩
        · have : (runOp m (SlotOp.claim ty now)).2.2 = none := by
            show (SlotClaim m ty now).2.2 = none
            rw [hcase]
          rw [this] at hsnd
          exact absurd hsnd (by simp)
        · have hh : (runOp m (SlotOp.claim ty now)).2.2 =
              some { slotId := m.nextSlotId, typeTag := ty, generation := 1 } := by
            show (SlotClaim m ty now).2.2 = _
            rw [hcase]
          rw [hh] at hsnd
          have hhand : ({ slotId := m.nextSlotId, typeTag := ty, generation := 1 } : SlotHandle) =
              h := by
            simpa using hsnd
          have halloc : (runTrace m ((SlotOp.claim ty now :: rest).take 1)).totalAllocations =
              m.totalAllocations + 1 := by
            show (runOp m (SlotOp.claim ty now)).1.totalAllocations = m.totalAllocations + 1
            show (SlotClaim m ty now).1.totalAllocations = m.totalAllocations + 1
            rw [hcase]
          have hlt2 : m.totalAllocations + 1 < UINT32_MOD := by
            have hge : (runOp m (SlotOp.claim ty now)).1.totalAllocations ≤
                (runTrace m (SlotOp.claim ty now :: rest)).totalAllocations :=
              runTrace_totalAlloc_ge _ rest
            have : (runOp m (SlotOp.claim ty now)).1.totalAllocations =
                m.totalAllocations + 1 := by
              show (SlotClaim m ty now).1.totalAllocations = m.totalAllocations + 1
              rw [hcase]
            omega
          constructor
          · rw [← hhand, halloc]
            show m.nextSlotId = m.totalAllocations + 1
            rw [hinv.1]
            rw [Nat.mod_eq_of_lt (by omega)]
            omega
          · rw [halloc]
            show m.totalAllocations < m.totalAllocations + 1
            omega
      | write hw n =>
        exact absurd hsnd (by simp [runOp, SlotWrite])
      | read hr n =>
        exact absurd hsnd (by simp [runOp, SlotRead])
      | release hr =>
        exact absurd hsnd (by simp [runOp, SlotRelease])
    | succ j =>
      have hout2 : (traceOutputs (runOp m op).1 rest).getD j (default, none) = (e, some h) :=
        hout
      have hres := ih (runOp m op).1 j (managerInv_step m op hinv) hbound hout2
      rw [List.take_succ_cons, List.take_succ_cons]
      exact hres

/-- C10 amended: as long as the manager performs fewer than 2^32 successful
claims, any two handles returned by distinct successful SlotClaim calls on
the same manager carry distinct, nonzero slot ids (issued by the nextSlotId
counter starting at 1).  Beyond 2^32 claims the uint32 counter wraps and
ids repeat (see the counterexample). -/
theorem slotClaim_ids_unique (maxSlots poolSize : Nat) (ops : List SlotOp)
    (i j : Nat) (ei ej : SlotError) (hi hj : SlotHandle)
    (hbound : (runTrace (SlotManagerCreate maxSlots poolSize) ops).totalAllocations <
      UINT32_MOD)
    (hij : i < j)
    (houti : (traceOutputs (SlotManagerCreate maxSlots poolSize) ops).getD i
      (default, none) = (ei, some hi))
    (houtj : (traceOutputs (SlotManagerCreate maxSlots poolSize) ops).getD j
      (default, none) = (ej, some hj)) :
    hi.slotId ≠ hj.slotId ∧ 0 < hi.slotId ∧ 0 < hj.slotId := by
  have hinv := managerInv_create maxSlots poolSize
  have hri := traceOutputs_claim_slotId _ ops i ei hi hinv hbound houti
  have hrj := traceOutputs_claim_slotId _ ops j ej hj hinv hbound houtj
  have hmono : (runTrace (SlotManagerCreate maxSlots poolSize) (ops.take (i + 1))).totalAllocations ≤
      (runTrace (SlotManagerCreate maxSlots poolSize) (ops.take j)).totalAllocations :=
    runTrace_take_mono _ ops (i + 1) j hij
  refine ⟨by omega, by omega, by omega⟩

/-- C10 witness: two successive claims on a two-slot manager receive the
distinct nonzero slot ids 1 and 2. -/
theorem slotClaim_ids_unique_witness :
    SlotHandle.slotId { slotId := 1, typeTag := 8192, generation := 1 } ≠
      SlotHandle.slotId { slotId := 2, typeTag := 8192, generation := 1 } ∧
    0 < SlotHandle.slotId { slotId := 1, typeTag := 8192, generation := 1 } ∧
    0 < SlotHandle.slotId { slotId := 2, typeTag := 8192, generation := 1 } :=
  slotClaim_ids_unique 2 1024 [SlotOp.claim 8192 0, SlotOp.claim 8192 3] 0 1
    SlotError.SLOT_SUCCESS SlotError.SLOT_SUCCESS
    { slotId := 1, typeTag := 8192, generation := 1 }
    { slotId := 2, typeTag := 8192, generation := 1 }
    (by decide) (by decide) (by decide) (by decide)

/-! ## Security layer: evaluation lemmas -/

theorem tokenGenerate_eq (env : CryptoEnv) (ctx : SecurityContext) (slotId : Nat)
    (level : SecurityLevel) (now rand : Nat) (hinit : ctx.initialized = true) :
    TokenGenerate env ctx slotId level now rand =
      ({ ctx with tokensIssued := ctx.tokensIssued + 1 },
       SecurityError.SECURITY_SUCCESS,
       some { slotId := slotId
              token :=
                { tokenData := env.sha256 (ctx.hwFingerprint, slotId, now, rand)
                  generation := (ctx.tokensIssued + 1) % UINT32_MOD
                  checksum := Nat.xor (env.hwHash ctx.hwFingerprint % UINT32_MOD)
                    ((ctx.tokensIssued + 1) % UINT32_MOD) }
              level := level
              issuedTime := now
              expiryTime := now + tokenTtlWindow level
              canRead := true
              canWrite := true
              canTransfer := false }) := by
  unfold TokenGenerate
  rw [if_neg (by rw [hinit]; simp)]

theorem tokenTtlWindow_pos (level : SecurityLevel) : 0 < tokenTtlWindow level := by
  cases level <;> decide

theorem tokenValidate_gen_mismatch (env : CryptoEnv) (ctx : SecurityContext)
    (slotId : Nat) (cap : TokenCapability) (now rand : Nat)
    (hinit : ctx.initialized = true)
    (hexp : ¬(cap.expiryTime > 0 ∧ now > cap.expiryTime))
    (hsid : cap.slotId = slotId)
    (hfp : env.fingerprintNow = ctx.hwFingerprint)
    (hck : cap.token.checksum =
      Nat.xor (env.hwHash ctx.hwFingerprint % UINT32_MOD) cap.token.generation)
    (hgen : cap.token.generation ≠ (ctx.tokensIssued + 1) % UINT32_MOD) :
    (TokenValidate env ctx slotId cap now rand).2 =
      SecurityError.SECURITY_ERROR_INVALID_TOKEN := by
  unfold TokenValidate
  rw [if_neg (by rw [hinit]; simp)]
  dsimp only
  rw [if_neg hexp]
  rw [if_neg (by rw [hsid]; simp)]
  rw [if_neg (by
    intro hand
    exact hand.2 (by rw [hfp]))]
  rw [if_neg (by
    rw [hck]
    simp)]
  rw [tokenGenerate_eq env
      { hwFingerprint := ctx.hwFingerprint, defaultLevel := ctx.defaultLevel,
        initialized := ctx.initialized, tokensIssued := ctx.tokensIssued,
        tokensValidated := ctx.tokensValidated + 1,
        validationFailures := ctx.validationFailures,
        securityViolations := ctx.securityViolations }
      slotId cap.level now rand hinit]
  dsimp only
  rw [if_neg (by
    intro htok
    have := congrArg SecureToken.generation htok
    exact hgen this)]

/-! ## Security layer: C4 -/

/-- C4 (code bug): TokenValidate deterministically rejects the capability
TokenGenerate just issued.  Its final step calls TokenGenerate again, which
draws fresh randomness and, decisively, increments tokensIssued, so the
regenerated token's generation field is one beyond the presented token's
and the constant-time comparison always fails with InvalidToken — even with
the same context, same slot id, no TTL lapse and an unchanged hardware
fingerprint.  The spec (and the repository's own test_security.c, lines
137-138) requires success here. -/
theorem tokenValidate_rejects_fresh_token (env : CryptoEnv) (ctx ctx2 : SecurityContext)
    (slotId : Nat) (level : SecurityLevel) (now rand rand2 : Nat) (cap : TokenCapability)
    (hfp : env.fingerprintNow = ctx.hwFingerprint)
    (hgen : TokenGenerate env ctx slotId level now rand =
      (ctx2, SecurityError.SECURITY_SUCCESS, some cap)) :
    (TokenValidate env ctx2 slotId cap now rand2).2 =
      SecurityError.SECURITY_ERROR_INVALID_TOKEN := by
  by_cases hinit : ctx.initialized = true
  · rw [tokenGenerate_eq env ctx slotId level now rand hinit] at hgen
    have hctx2 : ({ ctx with tokensIssued := ctx.tokensIssued + 1 } : SecurityContext) = ctx2 :=
      congrArg (fun p => p.1) hgen
    have hcap2 := Option.some.inj (congrArg (fun p => p.2.2) hgen)
    rw [← hctx2, ← hcap2]
    apply tokenValidate_gen_mismatch
    · exact hinit
    · intro hand
      have h2 := hand.2
      dsimp only at h2
      have := tokenTtlWindow_pos level
      omega
    · rfl
    · exact hfp
    · rfl
    · show (ctx.tokensIssued + 1) % UINT32_MOD ≠ (ctx.tokensIssued + 1 + 1) % UINT32_MOD
      unfold UINT32_MOD
      omega
  · have hfalse : ctx.initialized = false := by
      revert hinit
      cases ctx.initialized <;> simp
    have : TokenGenerate env ctx slotId level now rand =
        (ctx, SecurityError.SECURITY_ERROR_CONTEXT_NOT_INITIALIZED, none) := by
      unfold TokenGenerate
      rw [if_pos hfalse]
    rw [this] at hgen
    have := congrArg (fun p => p.2.1) hgen
    exact absurd this (by simp)

/-- C4 witness: the failing scenario at a concrete context (fingerprint 5,
no tokens issued yet): generate for slot 1 at hardware level, validate
immediately — InvalidToken. -/
theorem tokenValidate_rejects_fresh_token_witness :
    (TokenValidate { sha256 := fun _ => 7, hwHash := fun _ => 3, fingerprintNow := 5 }
      (TokenGenerate { sha256 := fun _ => 7, hwHash := fun _ => 3, fingerprintNow := 5 }
        { hwFingerprint := 5, defaultLevel := SecurityLevel.hardware, initialized := true,
          tokensIssued := 0, tokensValidated := 0, validationFailures := 0,
          securityViolations := 0 } 1 SecurityLevel.hardware 100 9).1
      1
      ((TokenGenerate { sha256 := fun _ => 7, hwHash := fun _ => 3, fingerprintNow := 5 }
        { hwFingerprint := 5, defaultLevel := SecurityLevel.hardware, initialized := true,
          tokensIssued := 0, tokensValidated := 0, validationFailures := 0,
          securityViolations := 0 } 1 SecurityLevel.hardware 100 9).2.2.getD default)
      100 11).2 = SecurityError.SECURITY_ERROR_INVALID_TOKEN :=
  tokenValidate_rejects_fresh_token
    { sha256 := fun _ => 7, hwHash := fun _ => 3, fingerprintNow := 5 }
    { hwFingerprint := 5, defaultLevel := SecurityLevel.hardware, initialized := true,
      tokensIssued := 0, tokensValidated := 0, validationFailures := 0,
      securityViolations := 0 }
    _ 1 SecurityLevel.hardware 100 9 11 _ rfl (by decide)

/-! ## Security layer: C5 -/

/-- C5 amended: a capability issued by TokenGenerate for slot s, presented
to TokenValidate for any slot s2 ≠ s, fails with InvalidToken and bumps the
context's securityViolations counter by exactly 1 — provided the capability
has not yet expired (current time at most expiryTime).  On an expired
capability the TTL check fires first: the result is TokenExpired and
securityViolations is untouched (see the counterexample). -/
theorem tokenValidate_wrong_slot (env env2 : CryptoEnv) (ctx ctx2 ctx3 : SecurityContext)
    (s s2 : Nat) (level : SecurityLevel) (now rand now2 rand2 : Nat) (cap : TokenCapability)
    (hgen : TokenGenerate env ctx s level now rand =
      (ctx2, SecurityError.SECURITY_SUCCESS, some cap))
    (hinit3 : ctx3.initialized = true)
    (hneq : s2 ≠ s)
    (hfresh : now2 ≤ cap.expiryTime) :
    (TokenValidate env2 ctx3 s2 cap now2 rand2).2 =
      SecurityError.SECURITY_ERROR_INVALID_TOKEN ∧
    (TokenValidate env2 ctx3 s2 cap now2 rand2).1.securityViolations =
      ctx3.securityViolations + 1 := by
  have hinit : ctx.initialized = true := by
    by_contra hfalse
    have hf2 : ctx.initialized = false := by
      revert hfalse
      cases ctx.initialized <;> simp
    have : TokenGenerate env ctx s level now rand =
        (ctx, SecurityError.SECURITY_ERROR_CONTEXT_NOT_INITIALIZED, none) := by
      unfold TokenGenerate
      rw [if_pos hf2]
    rw [this] at hgen
    have := congrArg (fun p => p.2.1) hgen
    exact absurd this (by simp)
  rw [tokenGenerate_eq env ctx s level now rand hinit] at hgen
  have hcap2 := Option.some.inj (congrArg (fun p => p.2.2) hgen)
  have hsid : cap.slotId = s := by
    rw [← hcap2]
  have heval : TokenValidate env2 ctx3 s2 cap now2 rand2 =
      ({ ctx3 with
          tokensValidated := ctx3.tokensValidated + 1
          validationFailures := ctx3.validationFailures + 1
          securityViolations := ctx3.securityViolations + 1 },
       SecurityError.SECURITY_ERROR_INVALID_TOKEN) := by
    unfold TokenValidate
    rw [if_neg (by rw [hinit3]; simp)]
    dsimp only
    rw [if_neg (by
      intro hand
      omega)]
    rw [if_pos (by rw [hsid]; exact fun h => hneq h.symm)]
  rw [heval]
  exact ⟨rfl, rfl⟩

/-- C5 witness: a fresh basic-level capability for slot 1, validated
against slot 2 within its TTL, yields InvalidToken and exactly one new
security violation. -/
theorem tokenValidate_wrong_slot_witness :
    (TokenValidate { sha256 := fun _ => 7, hwHash := fun _ => 3, fingerprintNow := 5 }
      (TokenGenerate { sha256 := fun _ => 7, hwHash := fun _ => 3, fingerprintNow := 5 }
        { hwFingerprint := 5, defaultLevel := SecurityLevel.basic, initialized := true,
          tokensIssued := 0, tokensValidated := 0, validationFailures := 0,
          securityViolations := 0 } 1 SecurityLevel.basic 0 9).1
      2
      ((TokenGenerate { sha256 := fun _ => 7, hwHash := fun _ => 3, fingerprintNow := 5 }
        { hwFingerprint := 5, defaultLevel := SecurityLevel.basic, initialized := true,
          tokensIssued := 0, tokensValidated := 0, validationFailures := 0,
          securityViolations := 0 } 1 SecurityLevel.basic 0 9).2.2.getD default)
      17 11).2 = SecurityError.SECURITY_ERROR_INVALID_TOKEN ∧
    (TokenValidate { sha256 := fun _ => 7, hwHash := fun _ => 3, fingerprintNow := 5 }
      (TokenGenerate { sha256 := fun _ => 7, hwHash := fun _ => 3, fingerprintNow := 5 }
        { hwFingerprint := 5, defaultLevel := SecurityLevel.basic, initialized := true,
          tokensIssued := 0, tokensValidated := 0, validationFailures := 0,
          securityViolations := 0 } 1 SecurityLevel.basic 0 9).1
      2
      ((TokenGenerate { sha256 := fun _ => 7, hwHash := fun _ => 3, fingerprintNow := 5 }
        { hwFingerprint := 5, defaultLevel := SecurityLevel.basic, initialized := true,
          tokensIssued := 0, tokensValidated := 0, validationFailures := 0,
          securityViolations := 0 } 1 SecurityLevel.basic 0 9).2.2.getD default)
      17 11).1.securityViolations =
      (TokenGenerate { sha256 := fun _ => 7, hwHash := fun _ => 3, fingerprintNow := 5 }
        { hwFingerprint := 5, defaultLevel := SecurityLevel.basic, initialized := true,
          tokensIssued := 0, tokensValidated := 0, validationFailures := 0,
          securityViolations := 0 } 1 SecurityLevel.basic 0 9).1.securityViolations + 1 :=
  tokenValidate_wrong_slot
    { sha256 := fun _ => 7, hwHash := fun _ => 3, fingerprintNow := 5 }
    { sha256 := fun _ => 7, hwHash := fun _ => 3, fingerprintNow := 5 }
    { hwFingerprint := 5, defaultLevel := SecurityLevel.basic, initialized := true,
      tokensIssued := 0, tokensValidated := 0, validationFailures := 0,
      securityViolations := 0 }
    ((TokenGenerate { sha256 := fun _ => 7, hwHash := fun _ => 3, fingerprintNow := 5 }
      { hwFingerprint := 5, defaultLevel := SecurityLevel.basic, initialized := true,
        tokensIssued := 0, tokensValidated := 0, validationFailures := 0,
        securityViolations := 0 } 1 SecurityLevel.basic 0 9).1)
    ((TokenGenerate { sha256 := fun _ => 7, hwHash := fun _ => 3, fingerprintNow := 5 }
      { hwFingerprint := 5, defaultLevel := SecurityLevel.basic, initialized := true,
        tokensIssued := 0, tokensValidated := 0, validationFailures := 0,
        securityViolations := 0 } 1 SecurityLevel.basic 0 9).1)
    1 2 SecurityLevel.basic 0 9 17 11
    ((TokenGenerate { sha256 := fun _ => 7, hwHash := fun _ => 3, fingerprintNow := 5 }
      { hwFingerprint := 5, defaultLevel := SecurityLevel.basic, initialized := true,
        tokensIssued := 0, tokensValidated := 0, validationFailures := 0,
        securityViolations := 0 } 1 SecurityLevel.basic 0 9).2.2.getD default)
    (by decide) (by decide) (by decide) (by decide)

/-- C5 counterexample: the same wrong-slot presentation on an expired
capability (issued at time 0 for slot 1 at basic level, validated against
slot 2 at time 300000001, one past its expiry) returns TokenExpired — not
InvalidToken — and leaves securityViolations at 0. -/
theorem tokenValidate_wrong_slot_expired_cex :
    (TokenValidate { sha256 := fun _ => 7, hwHash := fun _ => 3, fingerprintNow := 5 }
      (TokenGenerate { sha256 := fun _ => 7, hwHash := fun _ => 3, fingerprintNow := 5 }
        { hwFingerprint := 5, defaultLevel := SecurityLevel.basic, initialized := true,
          tokensIssued := 0, tokensValidated := 0, validationFailures := 0,
          securityViolations := 0 } 1 SecurityLevel.basic 0 9).1
      2
      ((TokenGenerate { sha256 := fun _ => 7, hwHash := fun _ => 3, fingerprintNow := 5 }
        { hwFingerprint := 5, defaultLevel := SecurityLevel.basic, initialized := true,
          tokensIssued := 0, tokensValidated := 0, validationFailures := 0,
          securityViolations := 0 } 1 SecurityLevel.basic 0 9).2.2.getD default)
      300000001 11).2 = SecurityError.SECURITY_ERROR_TOKEN_EXPIRED ∧
    (TokenValidate { sha256 := fun _ => 7, hwHash := fun _ => 3, fingerprintNow := 5 }
      (TokenGenerate { sha256 := fun _ => 7, hwHash := fun _ => 3, fingerprintNow := 5 }
        { hwFingerprint := 5, defaultLevel := SecurityLevel.basic, initialized := true,
          tokensIssued := 0, tokensValidated := 0, validationFailures := 0,
          securityViolations := 0 } 1 SecurityLevel.basic 0 9).1
      2
      ((TokenGenerate { sha256 := fun _ => 7, hwHash := fun _ => 3, fingerprintNow := 5 }
        { hwFingerprint := 5, defaultLevel := SecurityLevel.basic, initialized := true,
          tokensIssued := 0, tokensValidated := 0, validationFailures := 0,
          securityViolations := 0 } 1 SecurityLevel.basic 0 9).2.2.getD default)
      300000001 11).1.securityViolations = 0 := by
  refine ⟨by decide, by decide⟩

/-! ## Security layer: C6 -/

/-- C6: for a capability with nonzero expiryTime presented to an
initialized context, TokenValidate returns TokenExpired exactly when the
current time is strictly past expiryTime; at the exact expiry moment
(now = expiryTime) the TTL check passes. -/
theorem tokenValidate_ttl_boundary (env : CryptoEnv) (ctx : SecurityContext) (slotId : Nat)
    (cap : TokenCapability) (now rand : Nat)
    (hinit : ctx.initialized = true) (hexp : cap.expiryTime ≠ 0) :
    ((TokenValidate env ctx slotId cap now rand).2 =
        SecurityError.SECURITY_ERROR_TOKEN_EXPIRED ↔
      now > cap.expiryTime) := by
  unfold TokenValidate
  rw [if_neg (by rw [hinit]; simp)]
  dsimp only
  by_cases hgt : now > cap.expiryTime
  · rw [if_pos ⟨by omega, hgt⟩]
    simp [hgt]
  · rw [if_neg (by intro hand; exact hgt hand.2)]
    by_cases hslot : cap.slotId ≠ slotId
    · rw [if_pos hslot]
      simp [hgt]
    · rw [if_neg hslot]
      by_cases hhw : SecurityLevel.toNat cap.level ≥ SecurityLevel.toNat SecurityLevel.hardware ∧
          env.fingerprintNow ≠ ctx.hwFingerprint
      · rw [if_pos hhw]
        simp [hgt]
      · rw [if_neg hhw]
        by_cases hck : cap.token.checksum ≠
            Nat.xor (env.hwHash ctx.hwFingerprint % UINT32_MOD) cap.token.generation
        · rw [if_pos hck]
          simp [hgt]
        · rw [if_neg hck]
          rw [tokenGenerate_eq env
              { hwFingerprint := ctx.hwFingerprint, defaultLevel := ctx.defaultLevel,
                initialized := ctx.initialized, tokensIssued := ctx.tokensIssued,
                tokensValidated := ctx.tokensValidated + 1,
                validationFailures := ctx.validationFailures,
                securityViolations := ctx.securityViolations }
              slotId cap.level now rand hinit]
          dsimp only
          by_cases htok : cap.token =
              ({ tokenData := env.sha256 (ctx.hwFingerprint, slotId, now, rand)
                 generation := (ctx.tokensIssued + 1) % UINT32_MOD
                 checksum := Nat.xor (env.hwHash ctx.hwFingerprint % UINT32_MOD)
                   ((ctx.tokensIssued + 1) % UINT32_MOD) } : SecureToken)
          · rw [if_pos htok]
            simp [hgt]
          · rw [if_neg htok]
            simp [hgt]

/-- C6 witness: the boundary at a concrete capability with expiryTime
300000000: at now = expiryTime validation does not report TokenExpired; at
now = expiryTime + 1 it does. -/
theorem tokenValidate_ttl_boundary_witness :
    ¬((TokenValidate { sha256 := fun _ => 7, hwHash := fun _ => 3, fingerprintNow := 5 }
        { hwFingerprint := 5, defaultLevel := SecurityLevel.basic, initialized := true,
          tokensIssued := 1, tokensValidated := 0, validationFailures := 0,
          securityViolations := 0 } 1
        { slotId := 1, token := { tokenData := 7, generation := 1, checksum := 2 },
          level := SecurityLevel.basic, issuedTime := 0, expiryTime := 300000000,
          canRead := true, canWrite := true, canTransfer := false }
        300000000 11).2 = SecurityError.SECURITY_ERROR_TOKEN_EXPIRED) ∧
    (TokenValidate { sha256 := fun _ => 7, hwHash := fun _ => 3, fingerprintNow := 5 }
        { hwFingerprint := 5, defaultLevel := SecurityLevel.basic, initialized := true,
          tokensIssued := 1, tokensValidated := 0, validationFailures := 0,
          securityViolations := 0 } 1
        { slotId := 1, token := { tokenData := 7, generation := 1, checksum := 2 },
          level := SecurityLevel.basic, issuedTime := 0, expiryTime := 300000000,
          canRead := true, canWrite := true, canTransfer := false }
        300000001 11).2 = SecurityError.SECURITY_ERROR_TOKEN_EXPIRED :=
  ⟨fun h =>
    absurd ((tokenValidate_ttl_boundary
      { sha256 := fun _ => 7, hwHash := fun _ => 3, fingerprintNow := 5 }
      { hwFingerprint := 5, defaultLevel := SecurityLevel.basic, initialized := true,
        tokensIssued := 1, tokensValidated := 0, validationFailures := 0,
        securityViolations := 0 } 1
      { slotId := 1, token := { tokenData := 7, generation := 1, checksum := 2 },
        level := SecurityLevel.basic, issuedTime := 0, expiryTime := 300000000,
        canRead := true, canWrite := true, canTransfer := false }
      300000000 11 (by decide) (by decide)).mp h) (by decide),
   (tokenValidate_ttl_boundary
      { sha256 := fun _ => 7, hwHash := fun _ => 3, fingerprintNow := 5 }
      { hwFingerprint := 5, defaultLevel := SecurityLevel.basic, initialized := true,
        tokensIssued := 1, tokensValidated := 0, validationFailures := 0,
        securityViolations := 0 } 1
      { slotId := 1, token := { tokenData := 7, generation := 1, checksum := 2 },
        level := SecurityLevel.basic, issuedTime := 0, expiryTime := 300000000,
        canRead := true, canWrite := true, canTransfer := false }
      300000001 11 (by decide) (by decide)).mpr (by decide)⟩

/-! ## Party dispatcher: C9 -/

theorem majorityLoop_nil (req acc : Nat) : majorityLoop req [] acc = (acc, 0) := rfl

theorem majorityLoop_none (req : Nat) (rest : List (Option Bool)) (acc : Nat) :
    majorityLoop req (none :: rest) acc = majorityLoop req rest acc := rfl

theorem majorityLoop_false (req : Nat) (rest : List (Option Bool)) (acc : Nat) :
    majorityLoop req (some false :: rest) acc =
      ((majorityLoop req rest acc).1, (majorityLoop req rest acc).2 + 1) := by
  simp [majorityLoop]

theorem majorityLoop_true_hit (req : Nat) (rest : List (Option Bool)) (acc : Nat)
    (h : req ≤ acc + 1) :
    majorityLoop req (some true :: rest) acc = (acc + 1, 1) := by
  simp [majorityLoop, h]

theorem majorityLoop_true_miss (req : Nat) (rest : List (Option Bool)) (acc : Nat)
    (h : ¬req ≤ acc + 1) :
    majorityLoop req (some true :: rest) acc =
      ((majorityLoop req rest (acc + 1)).1, (majorityLoop req rest (acc + 1)).2 + 1) := by
  simp [majorityLoop, h]

theorem majorityLoop_count (req : Nat) (l : List (Option Bool)) (acc : Nat) :
    req ≤ (majorityLoop req l acc).1 ↔ req ≤ acc + countSuccess l := by
  induction l generalizing acc with
  | nil => simp [majorityLoop_nil, countSuccess]
  | cons o rest ih =>
    cases o with
    | none =>
      rw [majorityLoop_none, ih]
      exact Iff.rfl
    | some b =>
      cases b with
      | false =>
        rw [majorityLoop_false]
        dsimp only
        rw [ih]
        exact Iff.rfl
      | true =>
        have hcnt : countSuccess (some true :: rest) = countSuccess rest + 1 := rfl
        by_cases hreach : req ≤ acc + 1
        · rw [majorityLoop_true_hit req rest acc hreach, hcnt]
          dsimp only
          omega
        · rw [majorityLoop_true_miss req rest acc hreach, hcnt]
          dsimp only
          rw [ih]
          omega

theorem majorityLoop_stops (req : Nat) (l1 l2 : List (Option Bool)) (acc : Nat)
    (hcount : acc + countSuccess l1 + 1 = req) :
    majorityLoop req (l1 ++ some true :: l2) acc = (req, fiberCount l1 + 1) := by
  induction l1 generalizing acc with
  | nil =>
    have h0 : countSuccess [] = 0 := rfl
    rw [h0] at hcount
    show majorityLoop req (some true :: l2) acc = (req, fiberCount [] + 1)
    rw [majorityLoop_true_hit req l2 acc (by omega)]
    have : acc + 1 = req := by omega
    rw [this]
    rfl
  | cons o rest ih =>
    cases o with
    | none =>
      show majorityLoop req (none :: (rest ++ some true :: l2)) acc =
        (req, fiberCount (none :: rest) + 1)
      rw [majorityLoop_none]
      have hc : acc + countSuccess rest + 1 = req := by
        have : countSuccess (none :: rest) = countSuccess rest := rfl
        omega
      rw [ih acc hc]
      rfl
    | some b =>
      cases b with
      | false =>
        show majorityLoop req (some false :: (rest ++ some true :: l2)) acc =
          (req, fiberCount (some false :: rest) + 1)
        rw [majorityLoop_false]
        have hc : acc + countSuccess rest + 1 = req := by
          have : countSuccess (some false :: rest) = countSuccess rest := rfl
          omega
        rw [ih acc hc]
        rfl
      | true =>
        show majorityLoop req (some true :: (rest ++ some true :: l2)) acc =
          (req, fiberCount (some true :: rest) + 1)
        have hcnt : countSuccess (some true :: rest) = countSuccess rest + 1 := rfl
        have hc : acc + 1 + countSuccess rest + 1 = req := by omega
        rw [majorityLoop_true_miss req _ acc (by omega)]
        rw [ih (acc + 1) hc]
        rfl

/-- C9: under the Majority join strategy the dispatch reports overall
success exactly when at least ⌊n/2⌋+1 of the n per-role results succeeded,
and the wait loop stops at the very fiber whose success reaches that
threshold: the fibers after it are never waited for. -/
theorem dispatchMajority_threshold (results : List (Option Bool)) :
    ((DispatchParallelMajority results).1 = true ↔
      results.length / 2 + 1 ≤ countSuccess results) ∧
    (∀ l1 l2, results = l1 ++ some true :: l2 →
      countSuccess l1 + 1 = results.length / 2 + 1 →
      (DispatchParallelMajority results).2.2 = fiberCount l1 + 1) := by
  constructor
  · show (decide ((majorityLoop (results.length / 2 + 1) results 0).1 ≥
        results.length / 2 + 1) = true) ↔ _
    rw [decide_eq_true_iff]
    show results.length / 2 + 1 ≤ (majorityLoop (results.length / 2 + 1) results 0).1 ↔ _
    rw [majorityLoop_count]
    omega
  · intro l1 l2 hsplit hcount
    show (majorityLoop (results.length / 2 + 1) results 0).2 = fiberCount l1 + 1
    subst hsplit
    rw [majorityLoop_stops ((l1 ++ some true :: l2).length / 2 + 1) l1 l2 0 (by omega)]

/-- C9 witness: five entries (three successes, one failure, one entry with
no fiber): the dispatch succeeds (3 ≥ 5/2+1 = 3), and with the threshold
reached at the fourth entry the loop has waited for exactly 4 fibers. -/
theorem dispatchMajority_threshold_witness :
    ((DispatchParallelMajority [some true, some false, some true, some true, none]).1 = true ↔
      [some true, some false, some true, some true, (none : Option Bool)].length / 2 + 1 ≤
        countSuccess [some true, some false, some true, some true, none]) ∧
    (DispatchParallelMajority [some true, some false, some true, some true, none]).2.2 =
      fiberCount [some true, some false, some true] + 1 :=
  ⟨(dispatchMajority_threshold [some true, some false, some true, some true, none]).1,
   (dispatchMajority_threshold [some true, some false, some true, some true, none]).2
     [some true, some false, some true] [none] (by decide) (by decide)⟩

end Pergyra
